import Mathlib

/-!
# TrackHand: key translation engine and idle orchestrator

A shallow embedding of `KeyMatrix::set`, `KeyMatrix::send`, `KeyMatrix::wake`
(src/TrackHand/KeyMatrix.cpp) and of `PowerSave::sleep`, `PowerSave::operator()`
(src/TrackHand/PowerSave.cpp).

* Bytes (`uint8_t`, `KEYCODE_TYPE`) are natural numbers, reduced `% 256` where a
  value is stored into a byte.
* The fixed-size arrays `keyboardKeys[maxSend_]`, `keyboardKeysPrev_`,
  `keyboard_keys` are total functions `Fin 6 → Nat`; the mouse-button arrays are
  `Fin 3 → Nat`.
* The pointer `currentMode_` ranges over the five `Mode` members of `KeyMatrix`;
  it is a `ModeId`, and pointer comparison is equality of `ModeId`.
* Calls into the USB transport and the delays are recorded in a trace of `Event`s.
* The headers `KeyMatrix.h`, `keyMaps.h` and `PowerSave.h` are not part of the
  sources at hand: the constants and key maps they declare are the fields of
  `Env`, over which every definition is parametric.
-/

namespace TrackHand

/-! ## Data model -/

/-- The five `Mode` members of `KeyMatrix`: `normalMode_`, `shiftMode_`, `nasMode_`,
`fnMode_`, `mouseMode_`. -/
inductive ModeId where
  | normal
  | shift
  | nas
  | fn
  | mouse
  deriving DecidableEq, Repr

/-- Constants and tables of the absent headers: the sentinel key codes `DH_*`
and the three key maps (keyMaps.h), the `MODIFIERKEY_*` masks of the USB keyboard
library.  A key map sends a key index (`uint8_t`) to a key code. -/
structure Env where
  DH_KEY_NORM : Nat
  DH_KEY_SHIFT : Nat
  DH_KEY_NAS : Nat
  DH_KEY_FN : Nat
  DH_KEY_MOUSE : Nat
  DH_KEY_CTRL : Nat
  DH_KEY_ALT : Nat
  DH_MOUSE_1 : Nat
  DH_MOUSE_1_1 : Nat
  DH_MOUSE_2 : Nat
  DH_MOUSE_3 : Nat
  MODIFIERKEY_CTRL : Nat
  MODIFIERKEY_SHIFT : Nat
  MODIFIERKEY_ALT : Nat
  normalKeyMap : Nat → Nat
  shiftKeyMap : Nat → Nat
  mouseKeyMap : Nat → Nat

/-- The sentinel codes in the order of the `case` labels of `KeyMatrix::send`. -/
def Env.sentinels (E : Env) : List Nat :=
  [E.DH_KEY_NORM, E.DH_KEY_SHIFT, E.DH_KEY_NAS, E.DH_KEY_FN, E.DH_KEY_MOUSE,
   E.DH_KEY_CTRL, E.DH_KEY_ALT, E.DH_MOUSE_1, E.DH_MOUSE_1_1, E.DH_MOUSE_2, E.DH_MOUSE_3]

/-- Modelled from the spec: the values of the `DH_*` constants are declared in an
absent header.  The `case` labels of one `switch` are pairwise distinct, and the
spec places every sentinel in the block of byte values from 0xF0 upwards. -/
def Env.WF (E : Env) : Prop :=
  E.sentinels.Nodup ∧ ∀ c ∈ E.sentinels, 0xf0 ≤ c ∧ c < 256

instance (E : Env) : Decidable E.WF := by
  unfold Env.WF; infer_instance

/-- The class `KeyMatrix::Mode` as constructed in `KeyMatrix::KeyMatrix()`:
`Mode(modal, keyMap, led)`. -/
structure Mode where
  modal_ : Bool
  keyMap_ : Nat → Nat
  led_ : Nat

/-- The member initialisers of `KeyMatrix::KeyMatrix()`. -/
def Env.mode (E : Env) : ModeId → Mode
  | .normal => ⟨false, E.normalKeyMap, 31⟩
  | .shift => ⟨false, E.shiftKeyMap, 24⟩
  | .nas => ⟨false, E.normalKeyMap, 30⟩
  | .fn => ⟨false, E.normalKeyMap, 29⟩
  | .mouse => ⟨true, E.mouseKeyMap, 28⟩

/-- The accessor `Mode::modal()`. -/
def Mode.modal (m : Mode) : Bool := m.modal_

/-- Modelled from the spec: `Mode::keyCode` is defined in the absent KeyMatrix.h.
A mode resolves a key position to a key code via its fixed mapping, and a key
code is an 8-bit value. -/
def Mode.keyCode (m : Mode) (key : Nat) : Nat := m.keyMap_ key % 256

/-- Modelled from the spec: `Mode::set(prevMode)` is defined in the absent
KeyMatrix.h.  Activating a mode commits to that mode as the active one; the
initial mode is Normal, obtained from Normal's own rule with no predecessor. -/
def Mode.set (self : ModeId) (_prevMode : Option ModeId) : ModeId := self

/-- Observable effects, in program order. -/
inductive Event where
  | delay (ms : Nat)
  | keyboardReport (modifiers : Nat) (keys : List Nat)
  | mouseButtons (left middle right : Nat)
  | modeSleep (m : ModeId)
  | modeWake (m : ModeId)
  | trackBallSleep
  | trackBallWake
  | deepSleep
  deriving DecidableEq, Repr

/-- Tests for a keyboard report. -/
def Event.isKeyboardReport : Event → Bool
  | .keyboardReport _ _ => true
  | _ => false

/-- Tests for a mouse-button report. -/
def Event.isMouseButtons : Event → Bool
  | .mouseButtons _ _ _ => true
  | _ => false

/-- The number of keys of one USB report, `maxSend_`. -/
def maxSend_ : Nat := 6

/-- The mutable members of `KeyMatrix` read or written by `set`, `send` and
`wake`, with the transport buffer `keyboard_keys` and the modifier byte of the
USB keyboard.  `pressedKeys_` holds the entries `0 .. nPressed_ - 1` of the
array of that name, in scan order. -/
structure KeyMatrix where
  currentMode_ : ModeId
  pressedKeys_ : List Nat
  keyboardKeysPrev_ : Fin 6 → Nat
  mouseButtonsPrev_ : Fin 3 → Nat
  keyboard_keys : Fin 6 → Nat
  keyboard_modifier_keys : Nat

/-- A state together with the effects produced on the way to it. -/
structure Step where
  state : KeyMatrix
  trace : List Event

/-- The outcome of `KeyMatrix::send`: final state, effects, returned flag. -/
structure SendResult where
  state : KeyMatrix
  trace : List Event
  ret : Bool

/-- The array as the list of its entries in index order. -/
def toList6 (a : Fin 6 → Nat) : List Nat := [a 0, a 1, a 2, a 3, a 4, a 5]

/-- The array as the list of its entries in index order. -/
def toList3 (a : Fin 3 → Nat) : List Nat := [a 0, a 1, a 2]

/-- The assignment `a[i] = v` for a `uint8_t` index; an index outside the array
writes nothing. -/
def setAt {n : Nat} (a : Fin n → Nat) (i : Nat) (v : Nat) : Fin n → Nat :=
  fun j => if j.val = i then v else a j

/-- The call `Keyboard.send_now()`: one report carrying the modifier byte and the
transport buffer. -/
def KeyMatrix.send_now (s : KeyMatrix) : Event :=
  .keyboardReport s.keyboard_modifier_keys (toList6 s.keyboard_keys)

/-! ## KeyMatrix::set -/

/-- The function `KeyMatrix::set(const Mode& mode)`. -/
def KeyMatrix.set (E : Env) (s : KeyMatrix) (mode : ModeId) : Step :=
  if s.currentMode_ ≠ mode then
    { state := { s with currentMode_ := Mode.set mode (some s.currentMode_) }
      trace := if (E.mode mode).modal || (E.mode s.currentMode_).modal
               then [Event.delay 200] else [] }
  else
    { state := s, trace := [] }

/-! ## KeyMatrix::send -/

/-- The locals `mode`, `modifiers`, `mouseButtons` of `KeyMatrix::send`. -/
structure Scan where
  mode : Option ModeId
  modifiers : Nat
  mouseButtons : Fin 3 → Nat

/-- The initial values of the locals: `NULL`, `0`, `{0, 0, 0}`. -/
def Scan.init : Scan := ⟨none, 0, fun _ => 0⟩

/-- The `switch (keyCode)` of the first loop of `KeyMatrix::send`. -/
def scanSwitch (E : Env) (a : Scan) (keyCode : Nat) : Scan :=
  if keyCode = E.DH_KEY_NORM then { a with mode := some .normal }
  else if keyCode = E.DH_KEY_SHIFT then { a with mode := some .shift }
  else if keyCode = E.DH_KEY_NAS then { a with mode := some .nas }
  else if keyCode = E.DH_KEY_FN then { a with mode := some .fn }
  else if keyCode = E.DH_KEY_MOUSE then { a with mode := some .mouse }
  else if keyCode = E.DH_KEY_CTRL then
    { a with modifiers := (a.modifiers ||| E.MODIFIERKEY_CTRL) % 256 }
  else if keyCode = E.DH_KEY_ALT then
    { a with modifiers := (a.modifiers ||| E.MODIFIERKEY_ALT) % 256 }
  else if keyCode = E.DH_MOUSE_1 then { a with mouseButtons := setAt a.mouseButtons 0 1 }
  else if keyCode = E.DH_MOUSE_1_1 then { a with mouseButtons := setAt a.mouseButtons 0 2 }
  else if keyCode = E.DH_MOUSE_2 then { a with mouseButtons := setAt a.mouseButtons 1 1 }
  else if keyCode = E.DH_MOUSE_3 then { a with mouseButtons := setAt a.mouseButtons 2 1 }
  else a

/-- The first loop of `KeyMatrix::send` ("Scan for mode and modifiers"), run
over the pressed keys in scan order. -/
def scanLoop (E : Env) (cur : Mode) : List Nat → Scan → Scan
  | [], a => a
  | key :: rest, a => scanLoop E cur rest (scanSwitch E a (cur.keyCode key))

/-- The locals of `KeyMatrix::send` after its first loop. -/
def KeyMatrix.scanModes (E : Env) (s : KeyMatrix) : Scan :=
  scanLoop E (E.mode s.currentMode_) s.pressedKeys_ Scan.init

/-- The statement `if (mode) set(*mode); else if (!currentMode_->modal())
set(normalMode_);` of `KeyMatrix::send`. -/
def KeyMatrix.selectMode (E : Env) (s : KeyMatrix) : Step :=
  match (s.scanModes E).mode with
  | some mode => s.set E mode
  | none =>
    if !(E.mode s.currentMode_).modal then s.set E .normal
    else { state := s, trace := [] }

/-- The locals `nSend`, `keyboardKeys`, `unshiftedKeys`, `shiftedKeys`. -/
structure Emit where
  nSend : Nat
  keyboardKeys : Fin 6 → Nat
  unshiftedKeys : Bool
  shiftedKeys : Bool

/-- The initial values of the locals: `0`, `{0, 0, 0, 0, 0, 0}`, `false`, `false`. -/
def Emit.init : Emit := ⟨0, fun _ => 0, false, false⟩

/-- The second loop of `KeyMatrix::send`, run over the pressed keys in scan
order: `continue` on a special key, the shift classification, the masking of the
high bit, `break` when the report is full, the store into `keyboardKeys`. -/
def emitLoop (cur : Mode) : List Nat → Emit → Emit
  | [], e => e
  | key :: rest, e =>
    let keyCode := cur.keyCode key
    if keyCode ≥ 0xf0 then emitLoop cur rest e
    else
      let e1 : Emit :=
        if keyCode &&& (1 <<< 7) ≠ 0 then { e with shiftedKeys := true }
        else { e with unshiftedKeys := true }
      let keyCode := keyCode &&& 0x7f
      if e1.nSend ≥ maxSend_ then e1
      else
        emitLoop cur rest
          { e1 with keyboardKeys := setAt e1.keyboardKeys e1.nSend keyCode
                    nSend := e1.nSend + 1 }

/-- The locals of `KeyMatrix::send` after its second loop, which looks the keys
up in the mode left by `selectMode`. -/
def KeyMatrix.emission (E : Env) (s : KeyMatrix) : Emit :=
  emitLoop (E.mode (s.selectMode E).state.currentMode_) s.pressedKeys_ Emit.init

/-- The body of the loop "Check that some keys pressed have changed and transfer
to send buffer", for one index. -/
def transferKey (keyboardKeys : Fin 6 → Nat) (a : KeyMatrix × Bool) (keyi : Fin 6) :
    KeyMatrix × Bool :=
  let s1 := { a.1 with keyboard_keys := Function.update a.1.keyboard_keys keyi (keyboardKeys keyi) }
  let keysChanged := if s1.keyboardKeysPrev_ keyi ≠ keyboardKeys keyi then true else a.2
  ({ s1 with keyboardKeysPrev_ := Function.update s1.keyboardKeysPrev_ keyi (keyboardKeys keyi) },
   keysChanged)

/-- The loop over `keyi = 0 .. maxSend_ - 1`; the flag is `keysChanged`. -/
def transferKeys (keyboardKeys : Fin 6 → Nat) (s : KeyMatrix) : KeyMatrix × Bool :=
  [0, 1, 2, 3, 4, 5].foldl (transferKey keyboardKeys) (s, false)

/-- The body of the loop over the mouse buttons, for one index. -/
def transferButton (mouseButtons : Fin 3 → Nat) (a : KeyMatrix × Bool) (buttoni : Fin 3) :
    KeyMatrix × Bool :=
  let mouseButtonsChanged :=
    if a.1.mouseButtonsPrev_ buttoni ≠ mouseButtons buttoni then true else a.2
  ({ a.1 with mouseButtonsPrev_ :=
       Function.update a.1.mouseButtonsPrev_ buttoni (mouseButtons buttoni) },
   mouseButtonsChanged)

/-- The loop over `buttoni = 0 .. 2`; the flag is `mouseButtonsChanged`. -/
def transferButtons (mouseButtons : Fin 3 → Nat) (s : KeyMatrix) : KeyMatrix × Bool :=
  [0, 1, 2].foldl (transferButton mouseButtons) (s, false)

/-- The calls of `Mouse.set_buttons` made when the buttons changed, with the
special handling of the double click of button 1. -/
def mouseReports (mouseButtons : Fin 3 → Nat) : List Event :=
  if mouseButtons 0 = 2 then
    [.mouseButtons 1 0 0, .mouseButtons 0 0 0, .mouseButtons 1 0 0]
  else
    [.mouseButtons (mouseButtons 0) (mouseButtons 1) (mouseButtons 2)]

/-- The part of `KeyMatrix::send` from "Check that some keys pressed have
changed" to the end, for given values of the locals. -/
def KeyMatrix.transfer (s : KeyMatrix) (modifiers : Nat) (keyboardKeys : Fin 6 → Nat)
    (mouseButtons : Fin 3 → Nat) : SendResult :=
  let k := transferKeys keyboardKeys s
  let s2 : KeyMatrix := { k.1 with keyboard_modifier_keys := modifiers }
  let keysChanged := k.2
  let t2 : List Event := if keysChanged then [s2.send_now] else []
  let b := transferButtons mouseButtons s2
  let mouseButtonsChanged := b.2
  let t3 : List Event := if mouseButtonsChanged then mouseReports mouseButtons else []
  { state := b.1
    trace := t2 ++ t3
    ret := if keysChanged || mouseButtonsChanged then true else false }

/-- The function `KeyMatrix::send()`. -/
def KeyMatrix.send (E : Env) (s : KeyMatrix) : SendResult :=
  let sc := s.scanModes E
  let m := s.selectMode E
  let em := s.emission E
  if em.shiftedKeys && em.unshiftedKeys then
    { state := m.state, trace := m.trace, ret := false }
  else
    let modifiers :=
      if em.shiftedKeys then (sc.modifiers ||| E.MODIFIERKEY_SHIFT) % 256 else sc.modifiers
    let r := m.state.transfer modifiers em.keyboardKeys sc.mouseButtons
    { r with trace := m.trace ++ r.trace }

/-! ## KeyMatrix::sleep and KeyMatrix::wake -/

/-- The function `KeyMatrix::sleep()`: the sleep hook of the current mode.
`Mode::sleep` is a `const` member of the mode and touches no member of
`KeyMatrix`; it is recorded as an event. -/
def KeyMatrix.sleep (s : KeyMatrix) : Step :=
  { state := s, trace := [.modeSleep s.currentMode_] }

/-- The loop of `KeyMatrix::wake` that zeroes the transport buffer
`keyboard_keys[0 .. maxSend_ - 1]`. -/
def resetBuffer (s : KeyMatrix) : KeyMatrix :=
  [0, 1, 2, 3, 4, 5].foldl
    (fun (a : KeyMatrix) (keyi : Fin 6) =>
      { a with keyboard_keys := Function.update a.keyboard_keys keyi 0 }) s

/-- The function `KeyMatrix::wake()`: the wake hook of the current mode, the
delay, the reset of the transport buffer, a report with the shift modifier and a
report with no modifier. -/
def KeyMatrix.wake (E : Env) (s : KeyMatrix) : Step :=
  let s1 := resetBuffer s
  let s2 : KeyMatrix := { s1 with keyboard_modifier_keys := E.MODIFIERKEY_SHIFT % 256 }
  let s3 : KeyMatrix := { s2 with keyboard_modifier_keys := 0 }
  { state := s3
    trace := [.modeWake s.currentMode_, .delay 1000, s2.send_now, s3.send_now] }

/-! ## PowerSave -/

/-- The members of `PowerSave` used by `operator()`: the idle counter, the
timeout (seconds) and the iteration time (milliseconds); the last two are
constants of the absent PowerSave.h. -/
structure PowerSave where
  idleCount_ : Nat
  timeout_ : Nat
  iterTime_ : Nat
  deriving DecidableEq, Repr

/-- The objects of DataHand.cpp that `PowerSave` acts on: itself and the key
matrix it points to.  The track ball has no modelled state. -/
structure Firmware where
  powerSave : PowerSave
  keyMatrix : KeyMatrix

/-- The outcome of a `PowerSave` member: final state and effects. -/
structure Run where
  state : Firmware
  trace : List Event

/-- The static function `PowerSave::wake()`, the callback handed to `DeepSleep`. -/
def PowerSave.wake (E : Env) (f : Firmware) : Run :=
  let k := f.keyMatrix.wake E
  { state := { f with keyMatrix := k.state }
    trace := Event.trackBallWake :: k.trace }

/-- The function `PowerSave::sleep()`.  The call `DeepSleep(GPIO_WAKE,
wakeGPIOPin_, wake)` suspends the processor until the wake interrupt and then
runs the callback `wake`. -/
def PowerSave.sleep (E : Env) (f : Firmware) : Run :=
  let f1 : Firmware := { f with powerSave := { f.powerSave with idleCount_ := 0 } }
  let k := f1.keyMatrix.sleep
  let f2 : Firmware := { f1 with keyMatrix := k.state }
  let w := PowerSave.wake E f2
  { state := w.state
    trace := Event.trackBallSleep :: k.trace ++ Event.deepSleep :: w.trace }

/-- The counter after the first statement of `PowerSave::operator()`: reset on a
change, incremented otherwise. -/
def PowerSave.count (p : PowerSave) (changed : Bool) : PowerSave :=
  if changed then { p with idleCount_ := 0 }
  else { p with idleCount_ := p.idleCount_ + 1 }

/-- The function `PowerSave::operator()(const bool changed)`.  The threshold is
the integer quotient `timeout_*1000/iterTime_`; `iterTime_` is a non-zero constant
of the header (for a zero divisor, which the source leaves undefined, the
quotient here is 0). -/
def PowerSave.call (E : Env) (f : Firmware) (changed : Bool) : Run :=
  let f1 : Firmware := { f with powerSave := f.powerSave.count changed }
  if f1.powerSave.idleCount_ > f1.powerSave.timeout_ * 1000 / f1.powerSave.iterTime_ then
    PowerSave.sleep E f1
  else
    { state := f1, trace := [] }

/-- Tests whether a run entered `PowerSave::sleep`, which is the only source of
the `deepSleep` event. -/
def Run.slept (r : Run) : Bool := r.trace.contains Event.deepSleep

/-! ## Vocabulary of the statements -/

/-- The key codes of the pressed keys that the second loop of `KeyMatrix::send`
does not skip: the codes below 0xF0, in scan order. -/
def ordinaryCodes (cur : Mode) (keys : List Nat) : List Nat :=
  (keys.map cur.keyCode).filter (fun c => decide (c < 0xf0))

/-- The mode in which the second loop of `KeyMatrix::send` looks the keys up. -/
def KeyMatrix.emissionMode (E : Env) (s : KeyMatrix) : Mode :=
  E.mode (s.selectMode E).state.currentMode_

/-- The keyboard reports of a trace, in order. -/
def keyboardReports (t : List Event) : List Event := t.filter Event.isKeyboardReport

/-- The mouse-button reports of a trace, in order. -/
def mouseButtonReports (t : List Event) : List Event := t.filter Event.isMouseButtons

/-! ## Sample configuration -/

/-- A configuration with the sentinels at 0xF0 .. 0xFA.  In every map key 0 is a
plain `a` (0x04), key 1 a shifted `a` (0x84), keys 2 .. 7 are plain, key 9 is
the double click, key 10 has no output, key 11 is the first mouse button and
key 12 selects the mouse mode.  Key 8 selects the shift mode in the normal map,
is the plain code 0x0B in the shift map and selects Normal in the mouse map. -/
def sampleEnv : Env :=
  { DH_KEY_NORM := 0xf0, DH_KEY_SHIFT := 0xf1, DH_KEY_NAS := 0xf2, DH_KEY_FN := 0xf3,
    DH_KEY_MOUSE := 0xf4, DH_KEY_CTRL := 0xf5, DH_KEY_ALT := 0xf6, DH_MOUSE_1 := 0xf7,
    DH_MOUSE_1_1 := 0xf8, DH_MOUSE_2 := 0xf9, DH_MOUSE_3 := 0xfa,
    MODIFIERKEY_CTRL := 1, MODIFIERKEY_SHIFT := 2, MODIFIERKEY_ALT := 4,
    normalKeyMap := fun k =>
      [0x04, 0x84, 0x05, 0x06, 0x07, 0x08, 0x09, 0x0a, 0xf1, 0xf8, 0x00, 0xf7, 0xf4].getD k 0,
    shiftKeyMap := fun k =>
      [0x04, 0x84, 0x05, 0x06, 0x07, 0x08, 0x09, 0x0a, 0x0b, 0xf8, 0x00, 0xf7, 0xf4].getD k 0,
    mouseKeyMap := fun k =>
      [0x04, 0x84, 0x05, 0x06, 0x07, 0x08, 0x09, 0x0a, 0xf0, 0xf8, 0x00, 0xf7, 0xf4].getD k 0 }

/-- The key matrix after construction (Normal mode, neutral caches), holding the
given scan. -/
def KeyMatrix.initial (keys : List Nat) : KeyMatrix :=
  { currentMode_ := Mode.set .normal none
    pressedKeys_ := keys
    keyboardKeysPrev_ := fun _ => 0
    mouseButtonsPrev_ := fun _ => 0
    keyboard_keys := fun _ => 0
    keyboard_modifier_keys := 0 }

/-- A firmware state with timeout 1 s and iteration time 500 ms, hence the
threshold 1*1000/500 = 2, and the given idle counter. -/
def sampleFirmware (idle : Nat) : Firmware :=
  { powerSave := { idleCount_ := idle, timeout_ := 1, iterTime_ := 500 }
    keyMatrix := KeyMatrix.initial [] }

/-- The mode-select sentinels, in the order of their `case` labels. -/
def Env.modeSelectCodes (E : Env) : List Nat :=
  [E.DH_KEY_NORM, E.DH_KEY_SHIFT, E.DH_KEY_NAS, E.DH_KEY_FN, E.DH_KEY_MOUSE]

/-- The mode member named by the `case` label a key code falls under, if it is a
mode-select sentinel. -/
def Env.selectedMode (E : Env) (keyCode : Nat) : Option ModeId :=
  if keyCode = E.DH_KEY_NORM then some .normal
  else if keyCode = E.DH_KEY_SHIFT then some .shift
  else if keyCode = E.DH_KEY_NAS then some .nas
  else if keyCode = E.DH_KEY_FN then some .fn
  else if keyCode = E.DH_KEY_MOUSE then some .mouse
  else none

/-- A byte with bit 7 cleared. -/
def clearBit7 (c : Nat) : Nat := if c.testBit 7 then c - 128 else c

/-- The key array of the report as the spec words it: the first six ordinary
(below 0xF0) key codes in scan order, each with bit 7 cleared, followed by
zeros up to six entries. -/
def reportKeys (codes : List Nat) : List Nat :=
  ((codes.filter (fun c => decide (c < 0xf0))).take 6).map clearBit7 ++
    List.replicate (6 - (((codes.filter (fun c => decide (c < 0xf0))).take 6).map clearBit7).length) 0

/-- Tests whether a key resolves to "no output" (0x00) both under the current
mode, in which the first loop of `send` looks it up, and under the mode of the
emission pass, in which the second loop looks it up. -/
def KeyMatrix.noOutput (E : Env) (s : KeyMatrix) (key : Nat) : Bool :=
  decide ((E.mode s.currentMode_).keyCode key = 0) && decide ((s.emissionMode E).keyCode key = 0)

/-- The state with the no-output keys removed from the snapshot. -/
def KeyMatrix.dropNoOutput (E : Env) (s : KeyMatrix) : KeyMatrix :=
  { s with pressedKeys_ := s.pressedKeys_.filter (fun key => !s.noOutput E key) }

/-- The effect of `KeyMatrix::scan()` on the state read by `send`: the keys found
pressed by the matrix scan, in scan order, replace the previous snapshot. -/
def KeyMatrix.scanned (s : KeyMatrix) (keys : List Nat) : KeyMatrix :=
  { s with pressedKeys_ := keys }

/-- One call on the key matrix: `send` on a fresh snapshot, or `wake`. -/
inductive Call where
  | send (keys : List Nat)
  | wake
  deriving DecidableEq, Repr

/-- A sequence of calls run from a state, with the effects appended to the
trace so far. -/
def KeyMatrix.run (E : Env) : List Call → KeyMatrix → List Event → KeyMatrix × List Event
  | [], s, t => (s, t)
  | .send keys :: rest, s, t =>
    KeyMatrix.run E rest ((s.scanned keys).send E).state (t ++ ((s.scanned keys).send E).trace)
  | .wake :: rest, s, t =>
    KeyMatrix.run E rest (s.wake E).state (t ++ (s.wake E).trace)

/-- Tests that every `wake` of the sequence runs while the key cache is all
zero. -/
def KeyMatrix.wakesNeutral (E : Env) : List Call → KeyMatrix → Bool
  | [], _ => true
  | .send keys :: rest, s => KeyMatrix.wakesNeutral E rest ((s.scanned keys).send E).state
  | .wake :: rest, s =>
    decide (∀ i, s.keyboardKeysPrev_ i = 0) && KeyMatrix.wakesNeutral E rest (s.wake E).state

/-- The key array of the last keyboard report of a trace, `d` if there is none. -/
def lastKeysFrom (d : List Nat) (t : List Event) : List Nat :=
  t.foldl (fun acc ev => match ev with
    | .keyboardReport _ keys => keys
    | _ => acc) d

/-- The button triple of the last mouse-button report of a trace, `d` if there
is none. -/
def lastButtonsFrom (d : List Nat) (t : List Event) : List Nat :=
  t.foldl (fun acc ev => match ev with
    | .mouseButtons left middle right => [left, middle, right]
    | _ => acc) d

/-- The key array most recently transmitted; all zero before any report. -/
def lastKeyboardKeys (t : List Event) : List Nat := lastKeysFrom [0, 0, 0, 0, 0, 0] t

/-- The button triple most recently transmitted; all zero before any report. -/
def lastMouseButtons (t : List Event) : List Nat := lastButtonsFrom [0, 0, 0] t

/-- The button triple on the wire that corresponds to a cached triple: the
double-click code 2 in the first slot stands for the closing press (1,0,0). -/
def wireButtons (mb : Fin 3 → Nat) : List Nat :=
  if mb 0 = 2 then [1, 0, 0] else toList3 mb

/-- A modifier mask when the condition holds, no bit otherwise. -/
def maskIf (b : Bool) (mask : Nat) : Nat := if b then mask else 0

/-- Tests whether some pressed key resolves to the given code in the given mode. -/
def anyResolves (cur : Mode) (keys : List Nat) (code : Nat) : Bool :=
  keys.any (fun k => decide (cur.keyCode k = code))

/-- Tests whether some key placed in the report (one of the first six ordinary
keys, in the mode of the emission pass) is shift-tagged. -/
def KeyMatrix.emitsShifted (E : Env) (s : KeyMatrix) : Bool :=
  ((ordinaryCodes (s.emissionMode E) s.pressedKeys_).take 6).any
    (fun c => decide (c &&& 128 ≠ 0))

/-- A second sample configuration, with modifier keys.  In every map key 0 is a
plain `a` (0x04), key 1 a shifted `a` (0x84), key 2 is Ctrl, key 3 is Alt, key 5
selects the shift mode and key 6 the mouse mode.  Key 4 is the first mouse
button in the shift map and has no output in the other maps. -/
def modifierEnv : Env :=
  { DH_KEY_NORM := 0xf0, DH_KEY_SHIFT := 0xf1, DH_KEY_NAS := 0xf2, DH_KEY_FN := 0xf3,
    DH_KEY_MOUSE := 0xf4, DH_KEY_CTRL := 0xf5, DH_KEY_ALT := 0xf6, DH_MOUSE_1 := 0xf7,
    DH_MOUSE_1_1 := 0xf8, DH_MOUSE_2 := 0xf9, DH_MOUSE_3 := 0xfa,
    MODIFIERKEY_CTRL := 1, MODIFIERKEY_SHIFT := 2, MODIFIERKEY_ALT := 4,
    normalKeyMap := fun k => [0x04, 0x84, 0xf5, 0xf6, 0x00, 0xf1, 0xf4].getD k 0,
    shiftKeyMap := fun k => [0x04, 0x84, 0xf5, 0xf6, 0xf7, 0xf1, 0xf4].getD k 0,
    mouseKeyMap := fun k => [0x04, 0x84, 0xf5, 0xf6, 0x00, 0xf1, 0xf4].getD k 0 }

/-- A sequence of calls of `PowerSave::operator()`, one per value of `changed`. -/
def PowerSave.calls (E : Env) : List Bool → Firmware → Firmware
  | [], f => f
  | changed :: rest, f => PowerSave.calls E rest (PowerSave.call E f changed).state

/-! ## The second loop of `KeyMatrix::send` -/

theorem ordinaryCodes_nil (cur : Mode) : ordinaryCodes cur [] = [] := rfl

theorem ordinaryCodes_cons_special (cur : Mode) (key : Nat) (rest : List Nat)
    (h : 0xf0 ≤ cur.keyCode key) :
    ordinaryCodes cur (key :: rest) = ordinaryCodes cur rest := by
  have : ¬ cur.keyCode key < 0xf0 := by omega
  simp [ordinaryCodes, this]

theorem ordinaryCodes_cons_ordinary (cur : Mode) (key : Nat) (rest : List Nat)
    (h : cur.keyCode key < 0xf0) :
    ordinaryCodes cur (key :: rest) = cur.keyCode key :: ordinaryCodes cur rest := by
  simp [ordinaryCodes, h]

theorem emitLoop_cons_special (cur : Mode) (key : Nat) (rest : List Nat) (e : Emit)
    (h : 0xf0 ≤ cur.keyCode key) :
    emitLoop cur (key :: rest) e = emitLoop cur rest e := by
  simp [emitLoop, h]

theorem emitLoop_cons_full (cur : Mode) (key : Nat) (rest : List Nat) (e : Emit)
    (h : cur.keyCode key < 0xf0) (hn : 6 ≤ e.nSend) :
    emitLoop cur (key :: rest) e =
      if cur.keyCode key &&& 128 ≠ 0 then { e with shiftedKeys := true }
      else { e with unshiftedKeys := true } := by
  have h1 : ¬ 0xf0 ≤ cur.keyCode key := by omega
  rw [emitLoop]
  simp only [ge_iff_le, h1, if_false, maxSend_]
  split <;> simp_all

theorem emitLoop_cons_store (cur : Mode) (key : Nat) (rest : List Nat) (e : Emit)
    (h : cur.keyCode key < 0xf0) (hn : e.nSend < 6) :
    emitLoop cur (key :: rest) e =
      emitLoop cur rest
        { nSend := e.nSend + 1
          keyboardKeys := setAt e.keyboardKeys e.nSend (cur.keyCode key &&& 0x7f)
          unshiftedKeys := e.unshiftedKeys || decide (cur.keyCode key &&& 128 = 0)
          shiftedKeys := e.shiftedKeys || decide (cur.keyCode key &&& 128 ≠ 0) } := by
  have h1 : ¬ 0xf0 ≤ cur.keyCode key := by omega
  rw [emitLoop]
  simp only [ge_iff_le, h1, if_false, maxSend_]
  by_cases hb : cur.keyCode key &&& 128 = 0 <;> simp [hb] <;> omega

theorem emitLoop_shiftedKeys (cur : Mode) (keys : List Nat) (e : Emit) (hn : e.nSend ≤ 6) :
    (emitLoop cur keys e).shiftedKeys =
      (e.shiftedKeys ||
        ((ordinaryCodes cur keys).take (7 - e.nSend)).any (fun c => decide (c &&& 128 ≠ 0))) := by
  induction keys generalizing e with
  | nil => simp [emitLoop, ordinaryCodes_nil]
  | cons key rest ih =>
    by_cases hs : 0xf0 ≤ cur.keyCode key
    · rw [emitLoop_cons_special cur key rest e hs, ordinaryCodes_cons_special cur key rest hs]
      exact ih e hn
    · have ho : cur.keyCode key < 0xf0 := by omega
      rw [ordinaryCodes_cons_ordinary cur key rest ho]
      by_cases hf : e.nSend < 6
      · rw [emitLoop_cons_store cur key rest e ho hf, ih _ (by show e.nSend + 1 ≤ 6; omega)]
        have h7 : 7 - e.nSend = (7 - (e.nSend + 1)) + 1 := by omega
        rw [h7, List.take_succ_cons, List.any_cons, Bool.or_assoc]
      · have h6 : e.nSend = 6 := by omega
        rw [emitLoop_cons_full cur key rest e ho (by omega), h6]
        by_cases hb : cur.keyCode key &&& 128 = 0 <;> simp [hb]

theorem emitLoop_unshiftedKeys (cur : Mode) (keys : List Nat) (e : Emit) (hn : e.nSend ≤ 6) :
    (emitLoop cur keys e).unshiftedKeys =
      (e.unshiftedKeys ||
        ((ordinaryCodes cur keys).take (7 - e.nSend)).any (fun c => decide (c &&& 128 = 0))) := by
  induction keys generalizing e with
  | nil => simp [emitLoop, ordinaryCodes_nil]
  | cons key rest ih =>
    by_cases hs : 0xf0 ≤ cur.keyCode key
    · rw [emitLoop_cons_special cur key rest e hs, ordinaryCodes_cons_special cur key rest hs]
      exact ih e hn
    · have ho : cur.keyCode key < 0xf0 := by omega
      rw [ordinaryCodes_cons_ordinary cur key rest ho]
      by_cases hf : e.nSend < 6
      · rw [emitLoop_cons_store cur key rest e ho hf, ih _ (by show e.nSend + 1 ≤ 6; omega)]
        have h7 : 7 - e.nSend = (7 - (e.nSend + 1)) + 1 := by omega
        rw [h7, List.take_succ_cons, List.any_cons, Bool.or_assoc]
      · have h6 : e.nSend = 6 := by omega
        rw [emitLoop_cons_full cur key rest e ho (by omega), h6]
        by_cases hb : cur.keyCode key &&& 128 = 0 <;> simp [hb]

theorem emitLoop_keyboardKeys (cur : Mode) (keys : List Nat) (e : Emit) (i : Fin 6) :
    (emitLoop cur keys e).keyboardKeys i =
      if i.val < e.nSend then e.keyboardKeys i
      else match (ordinaryCodes cur keys)[i.val - e.nSend]? with
        | some c => c &&& 0x7f
        | none => e.keyboardKeys i := by
  induction keys generalizing e with
  | nil => simp [emitLoop, ordinaryCodes_nil]
  | cons key rest ih =>
    by_cases hs : 0xf0 ≤ cur.keyCode key
    · rw [emitLoop_cons_special cur key rest e hs, ordinaryCodes_cons_special cur key rest hs]
      exact ih e
    · have ho : cur.keyCode key < 0xf0 := by omega
      rw [ordinaryCodes_cons_ordinary cur key rest ho]
      by_cases hf : e.nSend < 6
      · rw [emitLoop_cons_store cur key rest e ho hf, ih]
        simp only [setAt]
        by_cases h1 : i.val < e.nSend
        · have h2 : i.val < e.nSend + 1 := by omega
          have h3 : i.val ≠ e.nSend := by omega
          simp [h1, h2, h3]
        · by_cases h4 : i.val = e.nSend
          · simp [h4]
          · have h5 : ¬ i.val < e.nSend + 1 := by omega
            have h6 : i.val - e.nSend = (i.val - (e.nSend + 1)) + 1 := by omega
            rw [if_neg h5, if_neg h1, h6, List.getElem?_cons_succ]
            simp [h4]
      · have h6 : i.val < e.nSend := by omega
        rw [emitLoop_cons_full cur key rest e ho (by omega)]
        by_cases hb : cur.keyCode key &&& 128 = 0 <;> simp [hb, h6]

/-! ## Mode selection leaves the report cache alone -/

theorem set_trace (E : Env) (s : KeyMatrix) (mode : ModeId) :
    (s.set E mode).trace = [] ∨ (s.set E mode).trace = [Event.delay 200] := by
  unfold KeyMatrix.set
  split
  · split <;> simp
  · simp

theorem set_state (E : Env) (s : KeyMatrix) (mode : ModeId) :
    (s.set E mode).state = { s with currentMode_ := mode } := by
  unfold KeyMatrix.set
  split
  · rfl
  · next h =>
    have h1 : s.currentMode_ = mode := by simpa using h
    cases s
    simp_all

theorem selectMode_trace (E : Env) (s : KeyMatrix) :
    (s.selectMode E).trace = [] ∨ (s.selectMode E).trace = [Event.delay 200] := by
  unfold KeyMatrix.selectMode
  split
  · exact set_trace E s _
  · split
    · exact set_trace E s _
    · simp

theorem selectMode_state (E : Env) (s : KeyMatrix) :
    (s.selectMode E).state =
      { s with currentMode_ := (s.selectMode E).state.currentMode_ } := by
  unfold KeyMatrix.selectMode
  split
  · simp [set_state]
  · split
    · simp [set_state]
    · rfl

theorem selectMode_no_reports (E : Env) (s : KeyMatrix) :
    keyboardReports (s.selectMode E).trace = [] ∧
      mouseButtonReports (s.selectMode E).trace = [] := by
  rcases selectMode_trace E s with h | h <;>
    simp [h, keyboardReports, mouseButtonReports, Event.isKeyboardReport, Event.isMouseButtons]

theorem emission_shiftedKeys (E : Env) (s : KeyMatrix) :
    (s.emission E).shiftedKeys =
      ((ordinaryCodes (s.emissionMode E) s.pressedKeys_).take 7).any
        (fun c => decide (c &&& 128 ≠ 0)) := by
  unfold KeyMatrix.emission KeyMatrix.emissionMode
  rw [emitLoop_shiftedKeys _ _ _ (by simp [Emit.init])]
  simp [Emit.init]

theorem emission_unshiftedKeys (E : Env) (s : KeyMatrix) :
    (s.emission E).unshiftedKeys =
      ((ordinaryCodes (s.emissionMode E) s.pressedKeys_).take 7).any
        (fun c => decide (c &&& 128 = 0)) := by
  unfold KeyMatrix.emission KeyMatrix.emissionMode
  rw [emitLoop_unshiftedKeys _ _ _ (by simp [Emit.init])]
  simp [Emit.init]

theorem emission_keyboardKeys (E : Env) (s : KeyMatrix) (i : Fin 6) :
    (s.emission E).keyboardKeys i =
      (ordinaryCodes (s.emissionMode E) s.pressedKeys_).getD i.val 0 &&& 0x7f := by
  unfold KeyMatrix.emission KeyMatrix.emissionMode
  rw [emitLoop_keyboardKeys]
  simp only [Emit.init, Nat.not_lt_zero, if_false, Nat.sub_zero, List.getD_eq_getElem?_getD]
  cases (ordinaryCodes (E.mode (s.selectMode E).state.currentMode_) s.pressedKeys_)[i.val]? <;> simp

theorem send_discard (E : Env) (s : KeyMatrix)
    (h : ((s.emission E).shiftedKeys && (s.emission E).unshiftedKeys) = true) :
    s.send E = { state := (s.selectMode E).state, trace := (s.selectMode E).trace, ret := false } := by
  unfold KeyMatrix.send
  simp only [h, if_true]

theorem send_transfer (E : Env) (s : KeyMatrix)
    (h : ((s.emission E).shiftedKeys && (s.emission E).unshiftedKeys) = false) :
    s.send E =
      { state := ((s.selectMode E).state.transfer
          (if (s.emission E).shiftedKeys
            then ((s.scanModes E).modifiers ||| E.MODIFIERKEY_SHIFT) % 256
            else (s.scanModes E).modifiers)
          (s.emission E).keyboardKeys (s.scanModes E).mouseButtons).state
        trace := (s.selectMode E).trace ++ ((s.selectMode E).state.transfer
          (if (s.emission E).shiftedKeys
            then ((s.scanModes E).modifiers ||| E.MODIFIERKEY_SHIFT) % 256
            else (s.scanModes E).modifiers)
          (s.emission E).keyboardKeys (s.scanModes E).mouseButtons).trace
        ret := ((s.selectMode E).state.transfer
          (if (s.emission E).shiftedKeys
            then ((s.scanModes E).modifiers ||| E.MODIFIERKEY_SHIFT) % 256
            else (s.scanModes E).modifiers)
          (s.emission E).keyboardKeys (s.scanModes E).mouseButtons).ret } := by
  unfold KeyMatrix.send
  simp only [h, Bool.false_eq_true, if_false]

/-- C1 (amended): when the ordinary keys classified by the emission loop, the first
seven in scan order under the mode of the emission pass, hold both a shift-tagged
code and a plain code, `send` returns false, emits no keyboard report and no
mouse-button report, and leaves both caches as they were. -/
theorem C1_shift_conflict_discards (E : Env) (s : KeyMatrix)
    (hs : ∃ c ∈ (ordinaryCodes (s.emissionMode E) s.pressedKeys_).take 7, c &&& 128 ≠ 0)
    (hu : ∃ c ∈ (ordinaryCodes (s.emissionMode E) s.pressedKeys_).take 7, c &&& 128 = 0) :
    (s.send E).ret = false ∧
      keyboardReports (s.send E).trace = [] ∧
      mouseButtonReports (s.send E).trace = [] ∧
      (s.send E).state.keyboardKeysPrev_ = s.keyboardKeysPrev_ ∧
      (s.send E).state.mouseButtonsPrev_ = s.mouseButtonsPrev_ := by
  have h1 : (s.emission E).shiftedKeys = true := by
    rw [emission_shiftedKeys, List.any_eq_true]
    obtain ⟨c, hc, hb⟩ := hs
    exact ⟨c, hc, by simpa using hb⟩
  have h2 : (s.emission E).unshiftedKeys = true := by
    rw [emission_unshiftedKeys, List.any_eq_true]
    obtain ⟨c, hc, hb⟩ := hu
    exact ⟨c, hc, by simpa using hb⟩
  rw [send_discard E s (by simp [h1, h2])]
  refine ⟨rfl, (selectMode_no_reports E s).1, (selectMode_no_reports E s).2, ?_, ?_⟩
  · show (s.selectMode E).state.keyboardKeysPrev_ = _
    rw [selectMode_state]
  · show (s.selectMode E).state.mouseButtonsPrev_ = _
    rw [selectMode_state]

/-- C1 (witness): keys 0 (0x04) and 1 (0x84) pressed together. -/
theorem C1_shift_conflict_discards_witness :
    (∃ c ∈ (ordinaryCodes ((KeyMatrix.initial [0, 1]).emissionMode sampleEnv)
        (KeyMatrix.initial [0, 1]).pressedKeys_).take 7, c &&& 128 ≠ 0) ∧
    (∃ c ∈ (ordinaryCodes ((KeyMatrix.initial [0, 1]).emissionMode sampleEnv)
        (KeyMatrix.initial [0, 1]).pressedKeys_).take 7, c &&& 128 = 0) ∧
    ((KeyMatrix.initial [0, 1]).send sampleEnv).ret = false ∧
      keyboardReports ((KeyMatrix.initial [0, 1]).send sampleEnv).trace = [] ∧
      mouseButtonReports ((KeyMatrix.initial [0, 1]).send sampleEnv).trace = [] ∧
      ((KeyMatrix.initial [0, 1]).send sampleEnv).state.keyboardKeysPrev_ =
        (KeyMatrix.initial [0, 1]).keyboardKeysPrev_ ∧
      ((KeyMatrix.initial [0, 1]).send sampleEnv).state.mouseButtonsPrev_ =
        (KeyMatrix.initial [0, 1]).mouseButtonsPrev_ :=
  ⟨⟨0x84, by decide, by decide⟩, ⟨0x04, by decide, by decide⟩,
    C1_shift_conflict_discards sampleEnv (KeyMatrix.initial [0, 1])
      ⟨0x84, by decide, by decide⟩ ⟨0x04, by decide, by decide⟩⟩

/-- C1 (counterexample): seven plain keys followed by the shifted key 1.  The
snapshot holds a plain code (key 0, 0x04) and a shift-tagged code (key 1, 0x84)
under the mode of the emission pass, yet `send` returns true, emits a keyboard
report and overwrites the key cache. -/
theorem C1_counterexample :
    (0 ∈ (KeyMatrix.initial [0, 2, 3, 4, 5, 6, 7, 1]).pressedKeys_ ∧
      ((KeyMatrix.initial [0, 2, 3, 4, 5, 6, 7, 1]).emissionMode sampleEnv).keyCode 0 = 0x04) ∧
    (1 ∈ (KeyMatrix.initial [0, 2, 3, 4, 5, 6, 7, 1]).pressedKeys_ ∧
      ((KeyMatrix.initial [0, 2, 3, 4, 5, 6, 7, 1]).emissionMode sampleEnv).keyCode 1 = 0x84) ∧
    ((KeyMatrix.initial [0, 2, 3, 4, 5, 6, 7, 1]).send sampleEnv).ret = true ∧
    ((KeyMatrix.initial [0, 2, 3, 4, 5, 6, 7, 1]).send sampleEnv).trace =
      [Event.keyboardReport 0 [4, 5, 6, 7, 8, 9]] ∧
    toList6 ((KeyMatrix.initial [0, 2, 3, 4, 5, 6, 7, 1]).send sampleEnv).state.keyboardKeysPrev_ =
      [4, 5, 6, 7, 8, 9] ∧
    toList6 (KeyMatrix.initial [0, 2, 3, 4, 5, 6, 7, 1]).keyboardKeysPrev_ = [0, 0, 0, 0, 0, 0] := by
  decide

/-! ## The transfer to the send buffer -/

theorem transferKeys_state (kk : Fin 6 → Nat) (s : KeyMatrix) :
    (transferKeys kk s).1 = { s with keyboard_keys := kk, keyboardKeysPrev_ := kk } := by
  have h1 : ∀ f : Fin 6 → Nat,
      Function.update (Function.update (Function.update (Function.update (Function.update
        (Function.update f 0 (kk 0)) 1 (kk 1)) 2 (kk 2)) 3 (kk 3)) 4 (kk 4)) 5 (kk 5) = kk := by
    intro f
    funext i
    fin_cases i <;> simp [Function.update]
  simp only [transferKeys, List.foldl, transferKey, h1]

theorem transferKeys_changed (kk : Fin 6 → Nat) (s : KeyMatrix) :
    (transferKeys kk s).2 = decide (∃ i, kk i ≠ s.keyboardKeysPrev_ i) := by
  simp only [transferKeys, List.foldl, transferKey]
  by_cases h : ∃ i, kk i ≠ s.keyboardKeysPrev_ i
  · obtain ⟨i, hi⟩ := h
    have hd : decide (∃ i, kk i ≠ s.keyboardKeysPrev_ i) = true := decide_eq_true ⟨i, hi⟩
    rw [hd]
    fin_cases i <;> simp [Function.update] at hi ⊢ <;> simp [Ne.symm hi]
  · have hd : decide (∃ i, kk i ≠ s.keyboardKeysPrev_ i) = false := decide_eq_false h
    rw [hd]
    have ha : ∀ i, s.keyboardKeysPrev_ i = kk i := by
      intro i
      by_contra hne
      exact h ⟨i, fun he => hne he.symm⟩
    simp [Function.update, ha]


theorem transferButtons_state (mb : Fin 3 → Nat) (s : KeyMatrix) :
    (transferButtons mb s).1 = { s with mouseButtonsPrev_ := mb } := by
  have h1 : ∀ f : Fin 3 → Nat,
      Function.update (Function.update (Function.update f 0 (mb 0)) 1 (mb 1)) 2 (mb 2) = mb := by
    intro f
    funext i
    fin_cases i <;> simp [Function.update]
  simp only [transferButtons, List.foldl, transferButton, h1]

theorem transferButtons_changed (mb : Fin 3 → Nat) (s : KeyMatrix) :
    (transferButtons mb s).2 = decide (∃ j, mb j ≠ s.mouseButtonsPrev_ j) := by
  simp only [transferButtons, List.foldl, transferButton]
  by_cases h : ∃ j, mb j ≠ s.mouseButtonsPrev_ j
  · obtain ⟨j, hj⟩ := h
    have hd : decide (∃ j, mb j ≠ s.mouseButtonsPrev_ j) = true := decide_eq_true ⟨j, hj⟩
    rw [hd]
    fin_cases j <;> simp [Function.update] at hj ⊢ <;> simp [Ne.symm hj]
  · have hd : decide (∃ j, mb j ≠ s.mouseButtonsPrev_ j) = false := decide_eq_false h
    rw [hd]
    have ha : ∀ j, s.mouseButtonsPrev_ j = mb j := by
      intro j
      by_contra hne
      exact h ⟨j, fun he => hne he.symm⟩
    simp [Function.update, ha]

theorem transfer_state (s : KeyMatrix) (modifiers : Nat) (kk : Fin 6 → Nat) (mb : Fin 3 → Nat) :
    (s.transfer modifiers kk mb).state =
      { s with keyboard_keys := kk, keyboardKeysPrev_ := kk, keyboard_modifier_keys := modifiers,
               mouseButtonsPrev_ := mb } := by
  simp only [KeyMatrix.transfer, transferButtons_state, transferKeys_state]

theorem transfer_ret (s : KeyMatrix) (modifiers : Nat) (kk : Fin 6 → Nat) (mb : Fin 3 → Nat) :
    (s.transfer modifiers kk mb).ret =
      (decide (∃ i, kk i ≠ s.keyboardKeysPrev_ i) || decide (∃ j, mb j ≠ s.mouseButtonsPrev_ j)) := by
  simp only [KeyMatrix.transfer, transferButtons_changed, transferKeys_changed, transferKeys_state]
  cases decide (∃ i, kk i ≠ s.keyboardKeysPrev_ i) <;>
    cases decide (∃ j, mb j ≠ s.mouseButtonsPrev_ j) <;> rfl

theorem transfer_trace (s : KeyMatrix) (modifiers : Nat) (kk : Fin 6 → Nat) (mb : Fin 3 → Nat) :
    (s.transfer modifiers kk mb).trace =
      (if (∃ i, kk i ≠ s.keyboardKeysPrev_ i)
        then [Event.keyboardReport modifiers (toList6 kk)] else []) ++
      (if (∃ j, mb j ≠ s.mouseButtonsPrev_ j) then mouseReports mb else []) := by
  simp only [KeyMatrix.transfer, transferButtons_changed, transferKeys_changed, transferKeys_state,
    KeyMatrix.send_now, decide_eq_true_eq]

theorem mouseReports_filter (mb : Fin 3 → Nat) :
    keyboardReports (mouseReports mb) = [] ∧ mouseButtonReports (mouseReports mb) = mouseReports mb := by
  unfold mouseReports
  split <;> simp [keyboardReports, mouseButtonReports, Event.isKeyboardReport, Event.isMouseButtons]

/-! ## `KeyMatrix::send` when the report is not discarded -/

theorem selectMode_keyboardKeysPrev (E : Env) (s : KeyMatrix) :
    (s.selectMode E).state.keyboardKeysPrev_ = s.keyboardKeysPrev_ := by
  rw [selectMode_state]

theorem selectMode_mouseButtonsPrev (E : Env) (s : KeyMatrix) :
    (s.selectMode E).state.mouseButtonsPrev_ = s.mouseButtonsPrev_ := by
  rw [selectMode_state]

theorem send_ret (E : Env) (s : KeyMatrix)
    (h : ((s.emission E).shiftedKeys && (s.emission E).unshiftedKeys) = false) :
    (s.send E).ret =
      (decide (∃ i, (s.emission E).keyboardKeys i ≠ s.keyboardKeysPrev_ i) ||
        decide (∃ j, (s.scanModes E).mouseButtons j ≠ s.mouseButtonsPrev_ j)) := by
  rw [send_transfer E s h]
  simp only [transfer_ret, selectMode_keyboardKeysPrev, selectMode_mouseButtonsPrev]

theorem send_keyboardReports (E : Env) (s : KeyMatrix)
    (h : ((s.emission E).shiftedKeys && (s.emission E).unshiftedKeys) = false) :
    keyboardReports (s.send E).trace =
      if (∃ i, (s.emission E).keyboardKeys i ≠ s.keyboardKeysPrev_ i) then
        [Event.keyboardReport
          (if (s.emission E).shiftedKeys
            then ((s.scanModes E).modifiers ||| E.MODIFIERKEY_SHIFT) % 256
            else (s.scanModes E).modifiers)
          (toList6 (s.emission E).keyboardKeys)]
      else [] := by
  rw [send_transfer E s h]
  simp only [transfer_trace, selectMode_keyboardKeysPrev, selectMode_mouseButtonsPrev]
  have h1 := (selectMode_no_reports E s).1
  have h2 := (mouseReports_filter (s.scanModes E).mouseButtons).1
  unfold keyboardReports at *
  rw [List.filter_append, List.filter_append, h1, List.nil_append]
  by_cases hk : ∃ i, (s.emission E).keyboardKeys i ≠ s.keyboardKeysPrev_ i <;>
    by_cases hm : ∃ j, (s.scanModes E).mouseButtons j ≠ s.mouseButtonsPrev_ j
  · rw [if_pos hk, if_pos hm, h2]
    rfl
  · rw [if_pos hk, if_neg hm]
    rfl
  · rw [if_neg hk, if_pos hm, h2]
    rfl
  · rw [if_neg hk, if_neg hm]
    rfl

theorem send_mouseButtonReports (E : Env) (s : KeyMatrix)
    (h : ((s.emission E).shiftedKeys && (s.emission E).unshiftedKeys) = false) :
    mouseButtonReports (s.send E).trace =
      if (∃ j, (s.scanModes E).mouseButtons j ≠ s.mouseButtonsPrev_ j) then
        mouseReports (s.scanModes E).mouseButtons
      else [] := by
  rw [send_transfer E s h]
  simp only [transfer_trace, selectMode_keyboardKeysPrev, selectMode_mouseButtonsPrev]
  have h1 := (selectMode_no_reports E s).2
  have h2 := (mouseReports_filter (s.scanModes E).mouseButtons).2
  unfold mouseButtonReports at *
  rw [List.filter_append, List.filter_append, h1, List.nil_append]
  by_cases hk : ∃ i, (s.emission E).keyboardKeys i ≠ s.keyboardKeysPrev_ i <;>
    by_cases hm : ∃ j, (s.scanModes E).mouseButtons j ≠ s.mouseButtonsPrev_ j
  · rw [if_pos hk, if_pos hm, h2]
    rfl
  · rw [if_pos hk, if_neg hm]
    rfl
  · rw [if_neg hk, if_pos hm, h2]
    rfl
  · rw [if_neg hk, if_neg hm]
    rfl

theorem send_state (E : Env) (s : KeyMatrix)
    (h : ((s.emission E).shiftedKeys && (s.emission E).unshiftedKeys) = false) :
    (s.send E).state.keyboardKeysPrev_ = (s.emission E).keyboardKeys ∧
      (s.send E).state.mouseButtonsPrev_ = (s.scanModes E).mouseButtons ∧
      (s.send E).state.keyboard_keys = (s.emission E).keyboardKeys ∧
      (s.send E).state.currentMode_ = (s.selectMode E).state.currentMode_ ∧
      (s.send E).state.pressedKeys_ = s.pressedKeys_ := by
  rw [send_transfer E s h]
  refine ⟨?_, ?_, ?_, ?_, ?_⟩ <;> dsimp only <;> rw [transfer_state]
  show (s.selectMode E).state.pressedKeys_ = _
  rw [selectMode_state]

/-- C8: when the report is not discarded by the shift-conflict test, `send`
returns true exactly when the computed key array differs from `keyboardKeysPrev_`
in some slot or the computed button triple differs from `mouseButtonsPrev_` in
some slot; it emits one keyboard report when the key arrays differ and none
otherwise, the mouse-button reports when the triples differ and none otherwise;
and in every case both caches end up equal to the computed values. -/
theorem C8_changed_iff_differs (E : Env) (s : KeyMatrix)
    (h : ¬ ((s.emission E).shiftedKeys = true ∧ (s.emission E).unshiftedKeys = true)) :
    ((s.send E).ret = true ↔
      (∃ i, (s.emission E).keyboardKeys i ≠ s.keyboardKeysPrev_ i) ∨
      (∃ j, (s.scanModes E).mouseButtons j ≠ s.mouseButtonsPrev_ j)) ∧
    ((∃ i, (s.emission E).keyboardKeys i ≠ s.keyboardKeysPrev_ i) →
      (keyboardReports (s.send E).trace).length = 1) ∧
    ((¬ ∃ i, (s.emission E).keyboardKeys i ≠ s.keyboardKeysPrev_ i) →
      keyboardReports (s.send E).trace = []) ∧
    ((∃ j, (s.scanModes E).mouseButtons j ≠ s.mouseButtonsPrev_ j) →
      mouseButtonReports (s.send E).trace = mouseReports (s.scanModes E).mouseButtons ∧
      mouseButtonReports (s.send E).trace ≠ []) ∧
    ((¬ ∃ j, (s.scanModes E).mouseButtons j ≠ s.mouseButtonsPrev_ j) →
      mouseButtonReports (s.send E).trace = []) ∧
    (s.send E).state.keyboardKeysPrev_ = (s.emission E).keyboardKeys ∧
    (s.send E).state.mouseButtonsPrev_ = (s.scanModes E).mouseButtons := by
  have hd : ((s.emission E).shiftedKeys && (s.emission E).unshiftedKeys) = false := by
    cases h1 : (s.emission E).shiftedKeys <;> cases h2 : (s.emission E).unshiftedKeys <;> simp_all
  refine ⟨?_, ?_, ?_, ?_, ?_, (send_state E s hd).1, (send_state E s hd).2.1⟩
  · rw [send_ret E s hd]
    simp
  · intro hk
    rw [send_keyboardReports E s hd, if_pos hk]
    rfl
  · intro hk
    rw [send_keyboardReports E s hd, if_neg hk]
  · intro hm
    rw [send_mouseButtonReports E s hd, if_pos hm]
    refine ⟨rfl, ?_⟩
    unfold mouseReports
    split <;> simp
  · intro hm
    rw [send_mouseButtonReports E s hd, if_neg hm]

/-- C8 (witness): key 0 (0x04) alone, from the neutral caches. -/
theorem C8_changed_iff_differs_witness :
    ¬ (((KeyMatrix.initial [0]).emission sampleEnv).shiftedKeys = true ∧
        ((KeyMatrix.initial [0]).emission sampleEnv).unshiftedKeys = true) ∧
    ((KeyMatrix.initial [0]).send sampleEnv).ret = true ∧
    toList6 ((KeyMatrix.initial [0]).send sampleEnv).state.keyboardKeysPrev_ = [4, 0, 0, 0, 0, 0] :=
  ⟨by decide,
   (C8_changed_iff_differs sampleEnv (KeyMatrix.initial [0]) (by decide)).1.mpr
     (Or.inl ⟨0, by decide⟩),
   by rw [(C8_changed_iff_differs sampleEnv (KeyMatrix.initial [0]) (by decide)).2.2.2.2.2.1]
      decide⟩

/-! ## `KeyMatrix::wake` -/

theorem discard_false_of_not (e : Emit)
    (h : ¬ (e.shiftedKeys = true ∧ e.unshiftedKeys = true)) :
    (e.shiftedKeys && e.unshiftedKeys) = false := by
  cases h1 : e.shiftedKeys <;> cases h2 : e.unshiftedKeys <;> simp_all

theorem and_0x7f (c : Nat) : c &&& 0x7f = c % 128 := Nat.and_pow_two_sub_one_eq_mod c 7

theorem wake_state (E : Env) (s : KeyMatrix) :
    (s.wake E).state = { s with keyboard_keys := fun _ => 0, keyboard_modifier_keys := 0 } := by
  have h1 : ∀ f : Fin 6 → Nat,
      Function.update (Function.update (Function.update (Function.update (Function.update
        (Function.update f 0 0) 1 0) 2 0) 3 0) 4 0) 5 0 = fun _ => 0 := by
    intro f
    funext i
    fin_cases i <;> simp [Function.update]
  simp only [KeyMatrix.wake, resetBuffer, List.foldl, h1]

theorem emission_slot_of_mem (E : Env) (s : KeyMatrix) (c : Nat)
    (hc : c ∈ (ordinaryCodes (s.emissionMode E) s.pressedKeys_).take 6) :
    ∃ i : Fin 6, (s.emission E).keyboardKeys i = c % 128 := by
  obtain ⟨n, hn⟩ := List.mem_iff_getElem?.mp hc
  rw [List.getElem?_take] at hn
  by_cases h6 : n < 6
  · rw [if_pos h6] at hn
    refine ⟨⟨n, h6⟩, ?_⟩
    rw [emission_keyboardKeys, List.getD_eq_getElem?_getD, hn, and_0x7f]
    rfl
  · rw [if_neg h6] at hn
    cases hn

theorem wake_trace (E : Env) (s : KeyMatrix) :
    (s.wake E).trace =
      [Event.modeWake s.currentMode_, Event.delay 1000,
       Event.keyboardReport (E.MODIFIERKEY_SHIFT % 256) [0, 0, 0, 0, 0, 0],
       Event.keyboardReport 0 [0, 0, 0, 0, 0, 0]] := by
  have h1 : ∀ f : Fin 6 → Nat,
      Function.update (Function.update (Function.update (Function.update (Function.update
        (Function.update f 0 0) 1 0) 2 0) 3 0) 4 0) 5 0 = fun _ => 0 := by
    intro f
    funext i
    fin_cases i <;> simp [Function.update]
  simp only [KeyMatrix.wake, resetBuffer, List.foldl, h1, KeyMatrix.send_now, toList6]

/-- C2 (amended): `wake` zeroes the transport buffer `keyboard_keys`, runs the
wake hook of the current mode, waits 1000 ms and sends a keyboard report with
the Shift modifier and all-zero keys followed by one with no modifier and
all-zero keys; it leaves `keyboardKeysPrev_`, `mouseButtonsPrev_`, the current
mode and the snapshot as they were before it ran.  The next `send` returns true
when the key cache was all zero before `wake`, the report is not discarded by
the shift-conflict test, and one of the first six ordinary keys of the snapshot
has a code with non-zero low seven bits. -/
theorem C2_wake_leaves_cache (E : Env) (s : KeyMatrix) (keys : List Nat) :
    (s.wake E).state.keyboard_keys = (fun _ => 0) ∧
    (s.wake E).state.keyboard_modifier_keys = 0 ∧
    (s.wake E).trace =
      [Event.modeWake s.currentMode_, Event.delay 1000,
       Event.keyboardReport (E.MODIFIERKEY_SHIFT % 256) [0, 0, 0, 0, 0, 0],
       Event.keyboardReport 0 [0, 0, 0, 0, 0, 0]] ∧
    (s.wake E).state.currentMode_ = s.currentMode_ ∧
    (s.wake E).state.pressedKeys_ = s.pressedKeys_ ∧
    (s.wake E).state.keyboardKeysPrev_ = s.keyboardKeysPrev_ ∧
    (s.wake E).state.mouseButtonsPrev_ = s.mouseButtonsPrev_ ∧
    ((∀ i, s.keyboardKeysPrev_ i = 0) →
      ¬ ((({ (s.wake E).state with pressedKeys_ := keys } : KeyMatrix).emission E).shiftedKeys = true ∧
         (({ (s.wake E).state with pressedKeys_ := keys } : KeyMatrix).emission E).unshiftedKeys = true) →
      (∃ c ∈ (ordinaryCodes
            (({ (s.wake E).state with pressedKeys_ := keys } : KeyMatrix).emissionMode E) keys).take 6,
          c % 128 ≠ 0) →
      (({ (s.wake E).state with pressedKeys_ := keys } : KeyMatrix).send E).ret = true) := by
  refine ⟨by rw [wake_state], by rw [wake_state], wake_trace E s, by rw [wake_state],
    by rw [wake_state], by rw [wake_state], by rw [wake_state], ?_⟩
  intro h0 hnd hc
  obtain ⟨c, hmem, hne⟩ := hc
  obtain ⟨i, hi⟩ := emission_slot_of_mem E _ c hmem
  rw [send_ret E _ (discard_false_of_not _ hnd), Bool.or_eq_true, decide_eq_true_eq]
  refine Or.inl ⟨i, ?_⟩
  rw [hi]
  show c % 128 ≠ (s.wake E).state.keyboardKeysPrev_ i
  rw [wake_state]
  show c % 128 ≠ s.keyboardKeysPrev_ i
  rw [h0 i]
  exact hne

/-- C2 (witness): key 0 (0x04) is pressed and released, which leaves the cache
all zero and 0x04 in no buffer; then `wake` runs and sends its two reports; then
key 0 is pressed again and `send` returns true. -/
theorem C2_wake_leaves_cache_witness :
    (∀ i, ((KeyMatrix.run sampleEnv [.send [0], .send []] (KeyMatrix.initial [])
      []).1).keyboardKeysPrev_ i = 0) ∧
    (((KeyMatrix.run sampleEnv [.send [0], .send []] (KeyMatrix.initial []) []).1).wake
      sampleEnv).trace =
      [Event.modeWake .normal, Event.delay 1000,
       Event.keyboardReport 2 [0, 0, 0, 0, 0, 0], Event.keyboardReport 0 [0, 0, 0, 0, 0, 0]] ∧
    (({ (((KeyMatrix.run sampleEnv [.send [0], .send []] (KeyMatrix.initial []) []).1).wake
      sampleEnv).state with pressedKeys_ := [0] } : KeyMatrix).send sampleEnv).ret = true :=
  ⟨by decide,
   ((C2_wake_leaves_cache sampleEnv
     ((KeyMatrix.run sampleEnv [.send [0], .send []] (KeyMatrix.initial []) []).1)
     [0]).2.2.1).trans (by decide),
   (C2_wake_leaves_cache sampleEnv
     ((KeyMatrix.run sampleEnv [.send [0], .send []] (KeyMatrix.initial []) []).1)
     [0]).2.2.2.2.2.2.2 (by decide) (by decide) ⟨0x04, by decide, by decide⟩⟩

/-- C2 (counterexample): key 0 (0x04) is sent, then `wake` runs, then the same
snapshot is processed again.  `wake` zeroes the transport buffer and sends its
two reports with all-zero keys, but after it the key cache still holds 0x04,
and the next `send` returns false and sends nothing although key 0 resolves to
the non-zero ordinary code 0x04. -/
theorem C2_counterexample :
    toList6 ((KeyMatrix.initial [0]).send sampleEnv).state.keyboard_keys = [4, 0, 0, 0, 0, 0] ∧
    toList6 (((KeyMatrix.initial [0]).send sampleEnv).state.wake sampleEnv).state.keyboard_keys =
      [0, 0, 0, 0, 0, 0] ∧
    (((KeyMatrix.initial [0]).send sampleEnv).state.wake sampleEnv).trace =
      [Event.modeWake .normal, Event.delay 1000,
       Event.keyboardReport 2 [0, 0, 0, 0, 0, 0], Event.keyboardReport 0 [0, 0, 0, 0, 0, 0]] ∧
    toList6 (((KeyMatrix.initial [0]).send sampleEnv).state.wake sampleEnv).state.keyboardKeysPrev_ =
      [4, 0, 0, 0, 0, 0] ∧
    (((KeyMatrix.initial [0]).send sampleEnv).state.wake sampleEnv).state.pressedKeys_ = [0] ∧
    ((((KeyMatrix.initial [0]).send sampleEnv).state.wake sampleEnv).state.emissionMode
      sampleEnv).keyCode 0 = 0x04 ∧
    ((((KeyMatrix.initial [0]).send sampleEnv).state.wake sampleEnv).state.send sampleEnv).ret =
      false ∧
    ((((KeyMatrix.initial [0]).send sampleEnv).state.wake sampleEnv).state.send sampleEnv).trace =
      [] := by
  decide

/-! ## The first loop of `KeyMatrix::send` -/

theorem scanLoop_append (E : Env) (cur : Mode) (l1 l2 : List Nat) (a : Scan) :
    scanLoop E cur (l1 ++ l2) a = scanLoop E cur l2 (scanLoop E cur l1 a) := by
  induction l1 generalizing a with
  | nil => rfl
  | cons k rest ih => exact ih _

theorem scanSwitch_cases (E : Env) (a : Scan) (c : Nat) :
    (c = E.DH_KEY_NORM ∧ scanSwitch E a c = { a with mode := some .normal }) ∨
    (c = E.DH_KEY_SHIFT ∧ scanSwitch E a c = { a with mode := some .shift }) ∨
    (c = E.DH_KEY_NAS ∧ scanSwitch E a c = { a with mode := some .nas }) ∨
    (c = E.DH_KEY_FN ∧ scanSwitch E a c = { a with mode := some .fn }) ∨
    (c = E.DH_KEY_MOUSE ∧ scanSwitch E a c = { a with mode := some .mouse }) ∨
    (c = E.DH_KEY_CTRL ∧
      scanSwitch E a c = { a with modifiers := (a.modifiers ||| E.MODIFIERKEY_CTRL) % 256 }) ∨
    (c = E.DH_KEY_ALT ∧
      scanSwitch E a c = { a with modifiers := (a.modifiers ||| E.MODIFIERKEY_ALT) % 256 }) ∨
    (c = E.DH_MOUSE_1 ∧ scanSwitch E a c = { a with mouseButtons := setAt a.mouseButtons 0 1 }) ∨
    (c = E.DH_MOUSE_1_1 ∧ scanSwitch E a c = { a with mouseButtons := setAt a.mouseButtons 0 2 }) ∨
    (c = E.DH_MOUSE_2 ∧ scanSwitch E a c = { a with mouseButtons := setAt a.mouseButtons 1 1 }) ∨
    (c = E.DH_MOUSE_3 ∧ scanSwitch E a c = { a with mouseButtons := setAt a.mouseButtons 2 1 }) ∨
    (c ∉ E.sentinels ∧ scanSwitch E a c = a) := by
  unfold scanSwitch
  by_cases h1 : c = E.DH_KEY_NORM
  · rw [if_pos h1]; exact Or.inl ⟨h1, rfl⟩
  rw [if_neg h1]; right
  by_cases h2 : c = E.DH_KEY_SHIFT
  · rw [if_pos h2]; exact Or.inl ⟨h2, rfl⟩
  rw [if_neg h2]; right
  by_cases h3 : c = E.DH_KEY_NAS
  · rw [if_pos h3]; exact Or.inl ⟨h3, rfl⟩
  rw [if_neg h3]; right
  by_cases h4 : c = E.DH_KEY_FN
  · rw [if_pos h4]; exact Or.inl ⟨h4, rfl⟩
  rw [if_neg h4]; right
  by_cases h5 : c = E.DH_KEY_MOUSE
  · rw [if_pos h5]; exact Or.inl ⟨h5, rfl⟩
  rw [if_neg h5]; right
  by_cases h6 : c = E.DH_KEY_CTRL
  · rw [if_pos h6]; exact Or.inl ⟨h6, rfl⟩
  rw [if_neg h6]; right
  by_cases h7 : c = E.DH_KEY_ALT
  · rw [if_pos h7]; exact Or.inl ⟨h7, rfl⟩
  rw [if_neg h7]; right
  by_cases h8 : c = E.DH_MOUSE_1
  · rw [if_pos h8]; exact Or.inl ⟨h8, rfl⟩
  rw [if_neg h8]; right
  by_cases h9 : c = E.DH_MOUSE_1_1
  · rw [if_pos h9]; exact Or.inl ⟨h9, rfl⟩
  rw [if_neg h9]; right
  by_cases h10 : c = E.DH_MOUSE_2
  · rw [if_pos h10]; exact Or.inl ⟨h10, rfl⟩
  rw [if_neg h10]; right
  by_cases h11 : c = E.DH_MOUSE_3
  · rw [if_pos h11]; exact Or.inl ⟨h11, rfl⟩
  rw [if_neg h11]; right
  refine ⟨?_, rfl⟩
  simp only [Env.sentinels, List.mem_cons, List.mem_singleton, List.not_mem_nil, or_false, not_or]
  exact ⟨h1, h2, h3, h4, h5, h6, h7, h8, h9, h10, h11⟩

theorem scanSwitch_keeps_double (E : Env) (a : Scan) (keyCode : Nat)
    (h2 : a.mouseButtons 0 = 2) (hk : keyCode ≠ E.DH_MOUSE_1) :
    (scanSwitch E a keyCode).mouseButtons 0 = 2 := by
  rcases scanSwitch_cases E a keyCode with h | h | h | h | h | h | h | h | h | h | h | h
  · rw [h.2]; exact h2
  · rw [h.2]; exact h2
  · rw [h.2]; exact h2
  · rw [h.2]; exact h2
  · rw [h.2]; exact h2
  · rw [h.2]; exact h2
  · rw [h.2]; exact h2
  · exact absurd h.1 hk
  · rw [h.2]; simp [setAt]
  · rw [h.2]; simp [setAt, h2]
  · rw [h.2]; simp [setAt, h2]
  · rw [h.2]; exact h2

theorem scanLoop_keeps_double (E : Env) (cur : Mode) (keys : List Nat) (a : Scan)
    (h2 : a.mouseButtons 0 = 2) (hk : ∀ k ∈ keys, cur.keyCode k ≠ E.DH_MOUSE_1) :
    (scanLoop E cur keys a).mouseButtons 0 = 2 := by
  induction keys generalizing a with
  | nil => exact h2
  | cons k rest ih =>
    exact ih _ (scanSwitch_keeps_double E a _ h2 (hk k (by simp)))
      (fun k' hk' => hk k' (by simp [hk']))

theorem sentinel_ne (E : Env) (hE : E.WF) (i j : Fin 11) (hij : i ≠ j) :
    E.sentinels.get ⟨i.val, i.isLt⟩ ≠ E.sentinels.get ⟨j.val, j.isLt⟩ := by
  intro h
  have h2 := (hE.1.get_inj_iff).mp h
  exact hij (Fin.ext (by simpa using congrArg Fin.val h2))

theorem scanSwitch_double (E : Env) (hE : E.WF) (a : Scan) :
    (scanSwitch E a E.DH_MOUSE_1_1).mouseButtons 0 = 2 := by
  rcases scanSwitch_cases E a E.DH_MOUSE_1_1 with h | h | h | h | h | h | h | h | h | h | h | h
  · exact absurd h.1 (sentinel_ne E hE 8 0 (by decide))
  · exact absurd h.1 (sentinel_ne E hE 8 1 (by decide))
  · exact absurd h.1 (sentinel_ne E hE 8 2 (by decide))
  · exact absurd h.1 (sentinel_ne E hE 8 3 (by decide))
  · exact absurd h.1 (sentinel_ne E hE 8 4 (by decide))
  · exact absurd h.1 (sentinel_ne E hE 8 5 (by decide))
  · exact absurd h.1 (sentinel_ne E hE 8 6 (by decide))
  · exact absurd h.1 (sentinel_ne E hE 8 7 (by decide))
  · rw [h.2]; simp [setAt]
  · exact absurd h.1 (sentinel_ne E hE 8 9 (by decide))
  · exact absurd h.1 (sentinel_ne E hE 8 10 (by decide))
  · exact absurd (by simp [Env.sentinels]) h.1

theorem scanModes_double (E : Env) (hE : E.WF) (s : KeyMatrix) (pre post : List Nat) (k : Nat)
    (hkeys : s.pressedKeys_ = pre ++ k :: post)
    (hk : (E.mode s.currentMode_).keyCode k = E.DH_MOUSE_1_1)
    (hpost : ∀ k' ∈ post, (E.mode s.currentMode_).keyCode k' ≠ E.DH_MOUSE_1) :
    (s.scanModes E).mouseButtons 0 = 2 := by
  unfold KeyMatrix.scanModes
  rw [hkeys, scanLoop_append]
  show (scanLoop E _ post (scanSwitch E _ ((E.mode s.currentMode_).keyCode k))).mouseButtons 0 = 2
  rw [hk]
  exact scanLoop_keeps_double E _ post _ (scanSwitch_double E hE _) hpost

/-- C3 (amended): let some key resolve under the current mode to `DH_MOUSE_1_1`
with no key after it in scan order resolving to `DH_MOUSE_1`, and let the report
not be discarded by the shift-conflict test.  If the computed button triple
differs from `mouseButtonsPrev_`, `send` issues exactly the three mouse-button
reports (1,0,0), (0,0,0), (1,0,0) in that order; if the triple equals the cache,
`send` issues no mouse-button report. -/
theorem C3_double_click_reports (E : Env) (hE : E.WF) (s : KeyMatrix)
    (pre post : List Nat) (k : Nat)
    (hkeys : s.pressedKeys_ = pre ++ k :: post)
    (hk : (E.mode s.currentMode_).keyCode k = E.DH_MOUSE_1_1)
    (hpost : ∀ k' ∈ post, (E.mode s.currentMode_).keyCode k' ≠ E.DH_MOUSE_1)
    (hnd : ¬ ((s.emission E).shiftedKeys = true ∧ (s.emission E).unshiftedKeys = true)) :
    ((∃ j, (s.scanModes E).mouseButtons j ≠ s.mouseButtonsPrev_ j) →
      mouseButtonReports (s.send E).trace =
        [Event.mouseButtons 1 0 0, Event.mouseButtons 0 0 0, Event.mouseButtons 1 0 0]) ∧
    ((¬ ∃ j, (s.scanModes E).mouseButtons j ≠ s.mouseButtonsPrev_ j) →
      mouseButtonReports (s.send E).trace = []) := by
  have h2 := scanModes_double E hE s pre post k hkeys hk hpost
  have hd := discard_false_of_not _ hnd
  constructor
  · intro hm
    rw [send_mouseButtonReports E s hd, if_pos hm]
    unfold mouseReports
    rw [if_pos h2]
  · intro hm
    rw [send_mouseButtonReports E s hd, if_neg hm]

/-- C3 (witness): key 9 (the double click) alone, from the neutral caches. -/
theorem C3_double_click_reports_witness :
    sampleEnv.WF ∧
    (sampleEnv.mode (KeyMatrix.initial [9]).currentMode_).keyCode 9 = sampleEnv.DH_MOUSE_1_1 ∧
    mouseButtonReports ((KeyMatrix.initial [9]).send sampleEnv).trace =
      [Event.mouseButtons 1 0 0, Event.mouseButtons 0 0 0, Event.mouseButtons 1 0 0] :=
  ⟨by decide, by decide,
   (C3_double_click_reports sampleEnv (by decide) (KeyMatrix.initial [9]) [] [] 9 rfl (by decide)
     (by simp) (by decide)).1 ⟨0, by decide⟩⟩

/-- C3 (counterexample): key 9 (the double click) held for a second cycle.  The
cache already holds the triple (2,0,0), key 9 still resolves to `DH_MOUSE_1_1`,
and `send` issues no mouse-button report. -/
theorem C3_counterexample :
    toList3 ((KeyMatrix.initial [9]).send sampleEnv).state.mouseButtonsPrev_ = [2, 0, 0] ∧
    ((KeyMatrix.initial [9]).send sampleEnv).state.pressedKeys_ = [9] ∧
    (sampleEnv.mode ((KeyMatrix.initial [9]).send sampleEnv).state.currentMode_).keyCode 9 =
      sampleEnv.DH_MOUSE_1_1 ∧
    mouseButtonReports (((KeyMatrix.initial [9]).send sampleEnv).state.send sampleEnv).trace = [] := by
  decide

/-! ## `PowerSave` -/

theorem sleep_powerSave (E : Env) (f : Firmware) :
    (PowerSave.sleep E f).state.powerSave = { f.powerSave with idleCount_ := 0 } := rfl

theorem sleep_slept (E : Env) (f : Firmware) : (PowerSave.sleep E f).slept = true := by
  simp [Run.slept, PowerSave.sleep, KeyMatrix.sleep]

theorem call_of_gt (E : Env) (f : Firmware) (changed : Bool)
    (h : (f.powerSave.count changed).idleCount_ >
      f.powerSave.timeout_ * 1000 / f.powerSave.iterTime_) :
    PowerSave.call E f changed =
      PowerSave.sleep E { f with powerSave := f.powerSave.count changed } := by
  have ht : (f.powerSave.count changed).timeout_ = f.powerSave.timeout_ := by
    unfold PowerSave.count; split <;> rfl
  have hi : (f.powerSave.count changed).iterTime_ = f.powerSave.iterTime_ := by
    unfold PowerSave.count; split <;> rfl
  unfold PowerSave.call
  simp only [ht, hi]
  rw [if_pos h]

theorem call_of_le (E : Env) (f : Firmware) (changed : Bool)
    (h : ¬ (f.powerSave.count changed).idleCount_ >
      f.powerSave.timeout_ * 1000 / f.powerSave.iterTime_) :
    PowerSave.call E f changed =
      { state := { f with powerSave := f.powerSave.count changed }, trace := [] } := by
  have ht : (f.powerSave.count changed).timeout_ = f.powerSave.timeout_ := by
    unfold PowerSave.count; split <;> rfl
  have hi : (f.powerSave.count changed).iterTime_ = f.powerSave.iterTime_ := by
    unfold PowerSave.count; split <;> rfl
  unfold PowerSave.call
  simp only [ht, hi]
  rw [if_neg h]

/-- C4 (amended): after `operator()(changed)` the idle counter is 0 when `changed` is true; when `changed` is false it is `n + 1`
if `n + 1` does not exceed `timeout_*1000/iterTime_`, and 0 otherwise, because
the call then runs `sleep`, which resets the counter. -/
theorem C4_idle_counter (E : Env) (f : Firmware) (changed : Bool) :
    (changed = true → (PowerSave.call E f changed).state.powerSave.idleCount_ = 0) ∧
    (changed = false →
      (PowerSave.call E f changed).state.powerSave.idleCount_ =
        if f.powerSave.idleCount_ + 1 > f.powerSave.timeout_ * 1000 / f.powerSave.iterTime_
        then 0 else f.powerSave.idleCount_ + 1) := by
  constructor
  · intro hc
    subst hc
    have h0 : (f.powerSave.count true).idleCount_ = 0 := rfl
    rw [call_of_le E f true (by rw [h0]; exact Nat.not_lt_zero _)]
    exact h0
  · intro hc
    subst hc
    have h1 : (f.powerSave.count false).idleCount_ = f.powerSave.idleCount_ + 1 := rfl
    by_cases hgt : f.powerSave.idleCount_ + 1 >
        f.powerSave.timeout_ * 1000 / f.powerSave.iterTime_
    · rw [call_of_gt E f false (by rw [h1]; exact hgt), if_pos hgt]
      rfl
    · rw [call_of_le E f false (by rw [h1]; exact hgt), if_neg hgt]
      exact h1

/-- C4 (witness): threshold 1*1000/500 = 2, counter 1, an idle cycle. -/
theorem C4_idle_counter_witness :
    (PowerSave.call sampleEnv (sampleFirmware 1) false).state.powerSave.idleCount_ = 2 ∧
    (PowerSave.call sampleEnv (sampleFirmware 1) true).state.powerSave.idleCount_ = 0 :=
  ⟨(C4_idle_counter sampleEnv (sampleFirmware 1) false).2 rfl,
   (C4_idle_counter sampleEnv (sampleFirmware 1) true).1 rfl⟩

/-- C4 (counterexample): threshold 1*1000/500 = 2, counter 2, an idle cycle: the
counter after the call is 0, not 3. -/
theorem C4_counterexample :
    (sampleFirmware 2).powerSave.idleCount_ = 2 ∧
    (PowerSave.call sampleEnv (sampleFirmware 2) false).state.powerSave.idleCount_ = 0 ∧
    (PowerSave.call sampleEnv (sampleFirmware 2) false).state.powerSave.idleCount_ ≠ 2 + 1 := by
  decide

/-- C5: `operator()(changed)` runs `sleep` exactly when the idle counter after the reset-or-increment step is strictly greater than
`timeout_*1000/iterTime_`; a counter equal to the threshold does not sleep, and
no call with `changed` true sleeps. -/
theorem C5_sleep_iff_exceeds (E : Env) (f : Firmware) (changed : Bool) :
    ((PowerSave.call E f changed).slept = true ↔
      (f.powerSave.count changed).idleCount_ >
        f.powerSave.timeout_ * 1000 / f.powerSave.iterTime_) ∧
    ((f.powerSave.count changed).idleCount_ =
        f.powerSave.timeout_ * 1000 / f.powerSave.iterTime_ →
      (PowerSave.call E f changed).slept = false) ∧
    (changed = true → (PowerSave.call E f changed).slept = false) := by
  have key : (PowerSave.call E f changed).slept = true ↔
      (f.powerSave.count changed).idleCount_ >
        f.powerSave.timeout_ * 1000 / f.powerSave.iterTime_ := by
    by_cases hgt : (f.powerSave.count changed).idleCount_ >
        f.powerSave.timeout_ * 1000 / f.powerSave.iterTime_
    · rw [call_of_gt E f changed hgt, sleep_slept]
      simp [hgt]
    · rw [call_of_le E f changed hgt]
      simp [Run.slept, hgt]
  refine ⟨key, ?_, ?_⟩
  · intro heq
    cases hs : (PowerSave.call E f changed).slept
    · rfl
    · have := key.mp hs
      omega
  · intro hc
    subst hc
    cases hs : (PowerSave.call E f true).slept
    · rfl
    · have hgt := key.mp hs
      have h0 : (f.powerSave.count true).idleCount_ = 0 := rfl
      rw [h0] at hgt
      exact absurd hgt (Nat.not_lt_zero _)

/-- C5 (witness): threshold 2; counter 2 and an idle cycle sleeps, counter 1 and
an idle cycle reaches the threshold and does not sleep. -/
theorem C5_sleep_iff_exceeds_witness :
    (PowerSave.call sampleEnv (sampleFirmware 2) false).slept = true ∧
    (PowerSave.call sampleEnv (sampleFirmware 1) false).slept = false :=
  ⟨(C5_sleep_iff_exceeds sampleEnv (sampleFirmware 2) false).1.mpr (by decide),
   (C5_sleep_iff_exceeds sampleEnv (sampleFirmware 1) false).2.1 (by decide)⟩

/-! ## Mode selection -/

theorem send_currentMode (E : Env) (s : KeyMatrix) :
    (s.send E).state.currentMode_ = (s.selectMode E).state.currentMode_ := by
  cases h : ((s.emission E).shiftedKeys && (s.emission E).unshiftedKeys)
  · exact (send_state E s h).2.2.2.1
  · rw [send_discard E s h]

theorem scanSwitch_mode_of_not_select (E : Env) (a : Scan) (c : Nat)
    (hc : c ∉ E.modeSelectCodes) : (scanSwitch E a c).mode = a.mode := by
  simp only [Env.modeSelectCodes, List.mem_cons, List.mem_singleton, List.not_mem_nil, or_false,
    not_or] at hc
  rcases scanSwitch_cases E a c with h | h | h | h | h | h | h | h | h | h | h | h
  · exact absurd h.1 hc.1
  · exact absurd h.1 hc.2.1
  · exact absurd h.1 hc.2.2.1
  · exact absurd h.1 hc.2.2.2.1
  · exact absurd h.1 hc.2.2.2.2
  all_goals rw [h.2]

theorem scanLoop_mode_of_not_select (E : Env) (cur : Mode) (keys : List Nat) (a : Scan)
    (hk : ∀ k ∈ keys, cur.keyCode k ∉ E.modeSelectCodes) :
    (scanLoop E cur keys a).mode = a.mode := by
  induction keys generalizing a with
  | nil => rfl
  | cons k rest ih =>
    show (scanLoop E cur rest (scanSwitch E a (cur.keyCode k))).mode = a.mode
    rw [ih _ (fun k' hk' => hk k' (by simp [hk'])),
      scanSwitch_mode_of_not_select E a _ (hk k (by simp))]

theorem scanSwitch_mode_of_select (E : Env) (a : Scan) (c : Nat)
    (hc : c ∈ E.modeSelectCodes) :
    (scanSwitch E a c).mode = E.selectedMode c ∧ E.selectedMode c ≠ none := by
  simp only [Env.modeSelectCodes, List.mem_cons, List.mem_singleton, List.not_mem_nil,
    or_false] at hc
  unfold scanSwitch Env.selectedMode
  by_cases h1 : c = E.DH_KEY_NORM
  · rw [if_pos h1, if_pos h1]; exact ⟨rfl, by simp⟩
  rw [if_neg h1, if_neg h1]
  by_cases h2 : c = E.DH_KEY_SHIFT
  · rw [if_pos h2, if_pos h2]; exact ⟨rfl, by simp⟩
  rw [if_neg h2, if_neg h2]
  by_cases h3 : c = E.DH_KEY_NAS
  · rw [if_pos h3, if_pos h3]; exact ⟨rfl, by simp⟩
  rw [if_neg h3, if_neg h3]
  by_cases h4 : c = E.DH_KEY_FN
  · rw [if_pos h4, if_pos h4]; exact ⟨rfl, by simp⟩
  rw [if_neg h4, if_neg h4]
  by_cases h5 : c = E.DH_KEY_MOUSE
  · rw [if_pos h5, if_pos h5]; exact ⟨rfl, by simp⟩
  rcases hc with h | h | h | h | h
  · exact absurd h h1
  · exact absurd h h2
  · exact absurd h h3
  · exact absurd h h4
  · exact absurd h h5

theorem selectMode_of_some (E : Env) (s : KeyMatrix) (m : ModeId)
    (h : (s.scanModes E).mode = some m) : (s.selectMode E).state.currentMode_ = m := by
  unfold KeyMatrix.selectMode
  rw [h]
  show (s.set E m).state.currentMode_ = m
  rw [set_state]

theorem selectMode_of_none (E : Env) (s : KeyMatrix)
    (h : (s.scanModes E).mode = none) :
    (s.selectMode E).state.currentMode_ =
      if (E.mode s.currentMode_).modal = true then s.currentMode_ else .normal := by
  unfold KeyMatrix.selectMode
  rw [h]
  cases hm : (E.mode s.currentMode_).modal
  · show (s.set E .normal).state.currentMode_ = _
    rw [set_state]
    simp
  · simp

/-- C6: when no pressed key resolves under the current mode to a mode-select
sentinel, the current mode after `send` is Normal if the current mode is not
modal, and is unchanged if the current mode is modal. -/
theorem C6_momentary_mode_reverts (E : Env) (s : KeyMatrix)
    (h : ∀ k ∈ s.pressedKeys_, (E.mode s.currentMode_).keyCode k ∉ E.modeSelectCodes) :
    ((E.mode s.currentMode_).modal = false → (s.send E).state.currentMode_ = .normal) ∧
    ((E.mode s.currentMode_).modal = true → (s.send E).state.currentMode_ = s.currentMode_) := by
  have hnone : (s.scanModes E).mode = none :=
    scanLoop_mode_of_not_select E _ _ Scan.init h
  rw [send_currentMode, selectMode_of_none E s hnone]
  constructor
  · intro hm
    rw [hm]
    simp
  · intro hm
    rw [hm]
    simp

/-- C6 (witness): in the shift mode (not modal) with key 0 pressed the mode goes
back to Normal; in the mouse mode (modal) with key 0 pressed it stays. -/
theorem C6_momentary_mode_reverts_witness :
    (({ KeyMatrix.initial [0] with currentMode_ := .shift } : KeyMatrix).send
      sampleEnv).state.currentMode_ = .normal ∧
    (({ KeyMatrix.initial [0] with currentMode_ := .mouse } : KeyMatrix).send
      sampleEnv).state.currentMode_ = .mouse :=
  ⟨(C6_momentary_mode_reverts sampleEnv { KeyMatrix.initial [0] with currentMode_ := .shift }
      (by decide)).1 (by decide),
   (C6_momentary_mode_reverts sampleEnv { KeyMatrix.initial [0] with currentMode_ := .mouse }
      (by decide)).2 (by decide)⟩

/-! ## The key array -/

theorem ordinaryCodes_lt (cur : Mode) (keys : List Nat) (c : Nat)
    (hc : c ∈ ordinaryCodes cur keys) : c < 0xf0 := by
  unfold ordinaryCodes at hc
  simpa using (List.mem_filter.mp hc).2

theorem clearBit7_of_lt (c : Nat) (h : c < 256) : clearBit7 c = c % 128 := by
  unfold clearBit7
  rw [Nat.testBit_to_div_mod]
  split
  · next h1 =>
    have : c / 2 ^ 7 % 2 = 1 := by simpa using h1
    omega
  · next h1 =>
    have : ¬ c / 2 ^ 7 % 2 = 1 := by simpa using h1
    omega

theorem padded_take_six (l : List Nat) :
    [l.getD 0 0 % 128, l.getD 1 0 % 128, l.getD 2 0 % 128, l.getD 3 0 % 128, l.getD 4 0 % 128,
        l.getD 5 0 % 128] =
      (l.take 6).map (fun c => c % 128) ++
        List.replicate (6 - ((l.take 6).map (fun c => c % 128)).length) 0 := by
  rcases l with _ | ⟨a, _ | ⟨b, _ | ⟨c, _ | ⟨d, _ | ⟨e, _ | ⟨f, l⟩⟩⟩⟩⟩⟩ <;>
    simp [List.replicate]

/-- C9: the 6-slot key array computed by `send` is the first six ordinary key
codes of the snapshot in scan order, resolved in the mode of the emission pass,
each with bit 7 cleared, followed by zeros. -/
theorem C9_first_six_ordinary (E : Env) (s : KeyMatrix) :
    toList6 (s.emission E).keyboardKeys =
      reportKeys (s.pressedKeys_.map (s.emissionMode E).keyCode) := by
  have hmap : ((ordinaryCodes (s.emissionMode E) s.pressedKeys_).take 6).map clearBit7 =
      ((ordinaryCodes (s.emissionMode E) s.pressedKeys_).take 6).map (fun c => c % 128) := by
    apply List.map_congr_left
    intro c hc
    have := ordinaryCodes_lt _ _ c (List.mem_of_mem_take hc)
    exact clearBit7_of_lt c (by omega)
  show _ = ((ordinaryCodes (s.emissionMode E) s.pressedKeys_).take 6).map clearBit7 ++
    List.replicate
      (6 - (((ordinaryCodes (s.emissionMode E) s.pressedKeys_).take 6).map clearBit7).length) 0
  rw [hmap, ← padded_take_six]
  simp only [toList6, emission_keyboardKeys, and_0x7f]
  rfl

/-! ## Keys without output -/

theorem scanSwitch_of_not_sentinel (E : Env) (a : Scan) (c : Nat) (hc : c ∉ E.sentinels) :
    scanSwitch E a c = a := by
  rcases scanSwitch_cases E a c with h | h | h | h | h | h | h | h | h | h | h | h
  · exact absurd (by rw [h.1]; simp [Env.sentinels]) hc
  · exact absurd (by rw [h.1]; simp [Env.sentinels]) hc
  · exact absurd (by rw [h.1]; simp [Env.sentinels]) hc
  · exact absurd (by rw [h.1]; simp [Env.sentinels]) hc
  · exact absurd (by rw [h.1]; simp [Env.sentinels]) hc
  · exact absurd (by rw [h.1]; simp [Env.sentinels]) hc
  · exact absurd (by rw [h.1]; simp [Env.sentinels]) hc
  · exact absurd (by rw [h.1]; simp [Env.sentinels]) hc
  · exact absurd (by rw [h.1]; simp [Env.sentinels]) hc
  · exact absurd (by rw [h.1]; simp [Env.sentinels]) hc
  · exact absurd (by rw [h.1]; simp [Env.sentinels]) hc
  · exact h.2

theorem scanSwitch_zero (E : Env) (hE : E.WF) (a : Scan) : scanSwitch E a 0 = a := by
  apply scanSwitch_of_not_sentinel
  intro h
  have := (hE.2 0 h).1
  omega

theorem scanLoop_filter (E : Env) (hE : E.WF) (cur : Mode) (p : Nat → Bool) (keys : List Nat)
    (a : Scan) (hp : ∀ k ∈ keys, p k = false → cur.keyCode k = 0) :
    scanLoop E cur (keys.filter p) a = scanLoop E cur keys a := by
  induction keys generalizing a with
  | nil => rfl
  | cons k rest ih =>
    have hrest : ∀ k' ∈ rest, p k' = false → cur.keyCode k' = 0 :=
      fun k' hk' => hp k' (by simp [hk'])
    cases hpk : p k
    · rw [List.filter_cons_of_neg (by simp [hpk])]
      show _ = scanLoop E cur rest (scanSwitch E a (cur.keyCode k))
      rw [hp k (by simp) hpk, scanSwitch_zero E hE, ih a hrest]
    · rw [List.filter_cons_of_pos (by simp [hpk])]
      show scanLoop E cur _ (scanSwitch E a (cur.keyCode k)) =
        scanLoop E cur rest (scanSwitch E a (cur.keyCode k))
      exact ih _ hrest

theorem selectMode_congr (E : Env) (s : KeyMatrix) (keys : List Nat)
    (h : (({ s with pressedKeys_ := keys } : KeyMatrix).scanModes E).mode = (s.scanModes E).mode) :
    (({ s with pressedKeys_ := keys } : KeyMatrix).selectMode E).trace = (s.selectMode E).trace ∧
    (({ s with pressedKeys_ := keys } : KeyMatrix).selectMode E).state =
      { (s.selectMode E).state with pressedKeys_ := keys } := by
  unfold KeyMatrix.selectMode
  rw [h]
  cases (s.scanModes E).mode with
  | some m =>
    simp only [KeyMatrix.set]
    split <;> exact ⟨rfl, rfl⟩
  | none =>
    simp only [KeyMatrix.set]
    split
    · split <;> exact ⟨rfl, rfl⟩
    · exact ⟨rfl, rfl⟩

theorem ordinaryCodes_filter_subset (cur : Mode) (p : Nat → Bool) (keys : List Nat) (c : Nat)
    (hc : c ∈ ordinaryCodes cur (keys.filter p)) : c ∈ ordinaryCodes cur keys := by
  unfold ordinaryCodes at hc ⊢
  rw [List.mem_filter] at hc ⊢
  refine ⟨?_, hc.2⟩
  obtain ⟨k', hk', hkc⟩ := List.mem_map.mp hc.1
  exact List.mem_map.mpr ⟨k', (List.mem_filter.mp hk').1, hkc⟩

theorem emission_not_shifted (E : Env) (s : KeyMatrix)
    (hns : ∀ c ∈ ordinaryCodes (s.emissionMode E) s.pressedKeys_, c &&& 128 = 0) :
    (s.emission E).shiftedKeys = false := by
  rw [emission_shiftedKeys, List.any_eq_false]
  intro c hc
  simpa using hns c (List.mem_of_mem_take hc)

theorem send_trace (E : Env) (s : KeyMatrix)
    (h : ((s.emission E).shiftedKeys && (s.emission E).unshiftedKeys) = false) :
    (s.send E).trace =
      (s.selectMode E).trace ++
        ((if (∃ i, (s.emission E).keyboardKeys i ≠ s.keyboardKeysPrev_ i) then
            [Event.keyboardReport
              (if (s.emission E).shiftedKeys
                then ((s.scanModes E).modifiers ||| E.MODIFIERKEY_SHIFT) % 256
                else (s.scanModes E).modifiers)
              (toList6 (s.emission E).keyboardKeys)]
          else []) ++
        (if (∃ j, (s.scanModes E).mouseButtons j ≠ s.mouseButtonsPrev_ j) then
            mouseReports (s.scanModes E).mouseButtons
          else [])) := by
  rw [send_transfer E s h]
  simp only [transfer_trace, selectMode_keyboardKeysPrev, selectMode_mouseButtonsPrev]

theorem send_modifier (E : Env) (s : KeyMatrix)
    (h : ((s.emission E).shiftedKeys && (s.emission E).unshiftedKeys) = false) :
    (s.send E).state.keyboard_modifier_keys =
      if (s.emission E).shiftedKeys
        then ((s.scanModes E).modifiers ||| E.MODIFIERKEY_SHIFT) % 256
        else (s.scanModes E).modifiers := by
  rw [send_transfer E s h]
  dsimp only
  rw [transfer_state]

theorem ordinaryCodes_append_zero (cur : Mode) (pre post : List Nat) (k : Nat)
    (hk : cur.keyCode k = 0) :
    ordinaryCodes cur (pre ++ k :: post) =
      ordinaryCodes cur pre ++ 0 :: ordinaryCodes cur post := by
  unfold ordinaryCodes
  rw [List.map_append, List.filter_append, List.map_cons, hk,
    List.filter_cons_of_pos (by decide)]

theorem all_zero_getD (l : List Nat) (hl : ∀ c ∈ l, c = 0) (j : Nat) : l.getD j 0 = 0 := by
  rw [List.getD_eq_getElem?_getD]
  cases hj : l[j]? with
  | none => rfl
  | some c => exact hl c (List.getElem?_mem hj)

theorem getD_ordinaryCodes_filter_keys (cur : Mode) (p : Nat → Bool) (keys : List Nat)
    (hp : ∀ k ∈ keys, p k = false → cur.keyCode k = 0)
    (htrail : keys.Pairwise
      (fun a b => p a = false → (cur.keyCode b = 0 ∨ 0xf0 ≤ cur.keyCode b))) (i : Nat) :
    (ordinaryCodes cur (keys.filter p)).getD i 0 = (ordinaryCodes cur keys).getD i 0 := by
  induction keys generalizing i with
  | nil => rfl
  | cons k rest ih =>
    have hrest : ∀ k' ∈ rest, p k' = false → cur.keyCode k' = 0 :=
      fun k' hk' => hp k' (by simp [hk'])
    rw [List.pairwise_cons] at htrail
    cases hpk : p k
    · have h0 := hp k (by simp) hpk
      have hall : ∀ c ∈ ordinaryCodes cur rest, c = 0 := by
        intro c hc
        have hlt := ordinaryCodes_lt cur rest c hc
        unfold ordinaryCodes at hc
        obtain ⟨b, hb, hbc⟩ := List.mem_map.mp (List.mem_filter.mp hc).1
        rcases htrail.1 b hb hpk with h | h
        · rw [← hbc]; exact h
        · omega
      have hsub : ∀ c ∈ ordinaryCodes cur (rest.filter p), c = 0 :=
        fun c hc => hall c (ordinaryCodes_filter_subset cur p rest c hc)
      rw [List.filter_cons_of_neg (by simp [hpk]),
        ordinaryCodes_cons_ordinary cur k rest (by rw [h0]; decide), h0,
        all_zero_getD _ hsub i]
      exact (all_zero_getD (0 :: ordinaryCodes cur rest)
        (fun c hc => by
          rcases List.mem_cons.mp hc with h | h
          · exact h
          · exact hall c h) i).symm
    · rw [List.filter_cons_of_pos (by simp [hpk])]
      by_cases hs : 0xf0 ≤ cur.keyCode k
      · rw [ordinaryCodes_cons_special cur k rest hs, ordinaryCodes_cons_special cur k _ hs]
        exact ih hrest htrail.2 i
      · have ho : cur.keyCode k < 0xf0 := by omega
        rw [ordinaryCodes_cons_ordinary cur k rest ho, ordinaryCodes_cons_ordinary cur k _ ho]
        cases i with
        | zero => rfl
        | succ j => exact ih hrest htrail.2 j

theorem emission_zero_key (E : Env) (s : KeyMatrix) (pre post : List Nat) (k : Nat)
    (hkeys : s.pressedKeys_ = pre ++ k :: post)
    (hk : (s.emissionMode E).keyCode k = 0) :
    ((ordinaryCodes (s.emissionMode E) pre).length < 7 → (s.emission E).unshiftedKeys = true) ∧
    (∀ i : Fin 6, i.val < (ordinaryCodes (s.emissionMode E) pre).length →
      (s.emission E).keyboardKeys i =
        (ordinaryCodes (s.emissionMode E) pre).getD i.val 0 &&& 0x7f) ∧
    (∀ i : Fin 6, i.val = (ordinaryCodes (s.emissionMode E) pre).length →
      (s.emission E).keyboardKeys i = 0) ∧
    (∀ i : Fin 6, (ordinaryCodes (s.emissionMode E) pre).length < i.val →
      (s.emission E).keyboardKeys i =
        (ordinaryCodes (s.emissionMode E) post).getD
          (i.val - (ordinaryCodes (s.emissionMode E) pre).length - 1) 0 &&& 0x7f) := by
  have hord := ordinaryCodes_append_zero (s.emissionMode E) pre post k hk
  rw [← hkeys] at hord
  refine ⟨?_, ?_, ?_, ?_⟩
  · intro hn
    rw [emission_unshiftedKeys, List.any_eq_true]
    refine ⟨0, ?_, by decide⟩
    rw [List.mem_iff_getElem?]
    refine ⟨(ordinaryCodes (s.emissionMode E) pre).length, ?_⟩
    rw [List.getElem?_take, if_pos hn, hord, List.getElem?_append_right (Nat.le_refl _),
      Nat.sub_self, List.getElem?_cons_zero]
  · intro i hi
    rw [emission_keyboardKeys, hord, List.getD_eq_getElem?_getD, List.getD_eq_getElem?_getD,
      List.getElem?_append_left hi]
  · intro i hi
    rw [emission_keyboardKeys, hord, List.getD_eq_getElem?_getD, hi,
      List.getElem?_append_right (Nat.le_refl _), Nat.sub_self, List.getElem?_cons_zero]
    rfl
  · intro i hi
    rw [emission_keyboardKeys, hord, List.getD_eq_getElem?_getD, List.getD_eq_getElem?_getD,
      List.getElem?_append_right (Nat.le_of_lt hi)]
    obtain ⟨m, hm⟩ : ∃ m, i.val - (ordinaryCodes (s.emissionMode E) pre).length = m + 1 :=
      ⟨i.val - (ordinaryCodes (s.emissionMode E) pre).length - 1, by omega⟩
    have hm1 : i.val - (ordinaryCodes (s.emissionMode E) pre).length - 1 = m := by omega
    rw [hm1, hm, List.getElem?_cons_succ]

/-- C10 (amended): a key that resolves to 0x00 in the mode of the emission pass is
not skipped by `send`.  When fewer than seven ordinary keys precede it, it counts
as plain, so that `send` discards the report if a shift-tagged key is among the
first seven ordinary keys; when fewer than six precede it, it takes the next
report slot with value 0 and every later ordinary key is placed one slot
further.  Removing the no-output keys (0x00 in the current mode and in the mode
of the emission pass) from the snapshot leaves the value returned by `send`, the
reports it emits and the resulting caches, mode and transport buffer unchanged
when the snapshot holds no shift-tagged ordinary key and no no-output key comes
before a non-zero ordinary key in scan order. -/
theorem C10_trailing_no_output (E : Env) (s : KeyMatrix) :
    (∀ (pre post : List Nat) (k : Nat), s.pressedKeys_ = pre ++ k :: post →
      (s.emissionMode E).keyCode k = 0 →
      ((ordinaryCodes (s.emissionMode E) pre).length < 7 →
        (s.emission E).unshiftedKeys = true) ∧
      ((ordinaryCodes (s.emissionMode E) pre).length < 7 →
        (∃ c ∈ (ordinaryCodes (s.emissionMode E) s.pressedKeys_).take 7, c &&& 128 ≠ 0) →
        (s.send E).ret = false ∧ keyboardReports (s.send E).trace = [] ∧
          mouseButtonReports (s.send E).trace = [] ∧
          (s.send E).state.keyboardKeysPrev_ = s.keyboardKeysPrev_) ∧
      (∀ i : Fin 6, i.val = (ordinaryCodes (s.emissionMode E) pre).length →
        (s.emission E).keyboardKeys i = 0) ∧
      (∀ i : Fin 6, (ordinaryCodes (s.emissionMode E) pre).length < i.val →
        (s.emission E).keyboardKeys i =
          (ordinaryCodes (s.emissionMode E) post).getD
            (i.val - (ordinaryCodes (s.emissionMode E) pre).length - 1) 0 &&& 0x7f)) ∧
    (E.WF →
      (∀ c ∈ ordinaryCodes (s.emissionMode E) s.pressedKeys_, c &&& 128 = 0) →
      s.pressedKeys_.Pairwise (fun a b => s.noOutput E a = true →
        ((s.emissionMode E).keyCode b = 0 ∨ 0xf0 ≤ (s.emissionMode E).keyCode b)) →
      ((s.dropNoOutput E).send E).ret = (s.send E).ret ∧
      ((s.dropNoOutput E).send E).trace = (s.send E).trace ∧
      ((s.dropNoOutput E).send E).state.keyboardKeysPrev_ = (s.send E).state.keyboardKeysPrev_ ∧
      ((s.dropNoOutput E).send E).state.mouseButtonsPrev_ = (s.send E).state.mouseButtonsPrev_ ∧
      ((s.dropNoOutput E).send E).state.currentMode_ = (s.send E).state.currentMode_ ∧
      ((s.dropNoOutput E).send E).state.keyboard_keys = (s.send E).state.keyboard_keys ∧
      ((s.dropNoOutput E).send E).state.keyboard_modifier_keys =
        (s.send E).state.keyboard_modifier_keys) := by
  constructor
  · intro pre post k hkeys hk
    have hz := emission_zero_key E s pre post k hkeys hk
    refine ⟨hz.1, ?_, hz.2.2.1, hz.2.2.2⟩
    intro hn hsh
    have h1 : (s.emission E).shiftedKeys = true := by
      rw [emission_shiftedKeys, List.any_eq_true]
      obtain ⟨c, hc, hb⟩ := hsh
      exact ⟨c, hc, by simpa using hb⟩
    have h2 := hz.1 hn
    rw [send_discard E s (by rw [h1, h2]; rfl)]
    exact ⟨rfl, (selectMode_no_reports E s).1, (selectMode_no_reports E s).2,
      selectMode_keyboardKeysPrev E s⟩
  · intro hE hns htrail
    have hp1 : ∀ k ∈ s.pressedKeys_, (fun key => !s.noOutput E key) k = false →
        (E.mode s.currentMode_).keyCode k = 0 := by
      intro k _ hk
      have hk2 : s.noOutput E k = true := by simpa using hk
      simp only [KeyMatrix.noOutput, Bool.and_eq_true, decide_eq_true_eq] at hk2
      exact hk2.1
    have hp2 : ∀ k ∈ s.pressedKeys_, (fun key => !s.noOutput E key) k = false →
        (s.emissionMode E).keyCode k = 0 := by
      intro k _ hk
      have hk2 : s.noOutput E k = true := by simpa using hk
      simp only [KeyMatrix.noOutput, Bool.and_eq_true, decide_eq_true_eq] at hk2
      exact hk2.2
    have htrail2 : s.pressedKeys_.Pairwise (fun a b => (fun key => !s.noOutput E key) a = false →
        ((s.emissionMode E).keyCode b = 0 ∨ 0xf0 ≤ (s.emissionMode E).keyCode b)) := by
      refine htrail.imp ?_
      intro a b hab ha
      exact hab (by simpa using ha)
    have hscan : (s.dropNoOutput E).scanModes E = s.scanModes E :=
      scanLoop_filter E hE (E.mode s.currentMode_) _ s.pressedKeys_ Scan.init hp1
    have hsel := selectMode_congr E s (s.pressedKeys_.filter (fun key => !s.noOutput E key))
      (congrArg Scan.mode hscan)
    have hselT : ((s.dropNoOutput E).selectMode E).trace = (s.selectMode E).trace := hsel.1
    have hselS : ((s.dropNoOutput E).selectMode E).state =
        { (s.selectMode E).state with
          pressedKeys_ := s.pressedKeys_.filter (fun key => !s.noOutput E key) } := hsel.2
    have hmode : (s.dropNoOutput E).emissionMode E = s.emissionMode E := by
      unfold KeyMatrix.emissionMode
      rw [hselS]
    have hkeys : (s.dropNoOutput E).pressedKeys_ =
        s.pressedKeys_.filter (fun key => !s.noOutput E key) := rfl
    have hkk : ((s.dropNoOutput E).emission E).keyboardKeys = (s.emission E).keyboardKeys := by
      funext i
      rw [emission_keyboardKeys, emission_keyboardKeys, hmode, hkeys,
        getD_ordinaryCodes_filter_keys _ _ _ hp2 htrail2]
    have hsh : (s.emission E).shiftedKeys = false := emission_not_shifted E s hns
    have hsh2 : ((s.dropNoOutput E).emission E).shiftedKeys = false := by
      apply emission_not_shifted
      intro c hc
      rw [hmode, hkeys] at hc
      exact hns c (ordinaryCodes_filter_subset _ _ _ c hc)
    have hd : ((s.emission E).shiftedKeys && (s.emission E).unshiftedKeys) = false := by
      rw [hsh]; rfl
    have hd2 : (((s.dropNoOutput E).emission E).shiftedKeys &&
        ((s.dropNoOutput E).emission E).unshiftedKeys) = false := by
      rw [hsh2]; rfl
    have hprevK : (s.dropNoOutput E).keyboardKeysPrev_ = s.keyboardKeysPrev_ := rfl
    have hprevM : (s.dropNoOutput E).mouseButtonsPrev_ = s.mouseButtonsPrev_ := rfl
    refine ⟨?_, ?_, ?_, ?_, ?_, ?_, ?_⟩
    · rw [send_ret E _ hd2, send_ret E s hd, hkk, hscan, hprevK, hprevM]
    · rw [send_trace E _ hd2, send_trace E s hd, hkk, hscan, hprevK, hprevM, hselT, hsh, hsh2]
    · rw [(send_state E _ hd2).1, (send_state E s hd).1, hkk]
    · rw [(send_state E _ hd2).2.1, (send_state E s hd).2.1, hscan]
    · rw [send_currentMode, send_currentMode, hselS]
    · rw [(send_state E _ hd2).2.2.1, (send_state E s hd).2.2.1, hkk]
    · rw [send_modifier E _ hd2, send_modifier E s hd, hscan, hsh, hsh2]

/-- C10 (witness): the no-output key 10 before key 0 (0x04) takes the first slot
and puts 0x04 in the second; before the shifted key 1 it makes `send` discard
the report; after key 0 it can be removed without any effect.  In the shift mode
of the second configuration key 4 is 0x00 in the mode of the emission pass only,
so it is no no-output key and may come before key 0. -/
theorem C10_trailing_no_output_witness :
    ((KeyMatrix.initial [10, 0]).emissionMode sampleEnv).keyCode 10 = 0 ∧
    ((KeyMatrix.initial [10, 0]).emission sampleEnv).keyboardKeys 0 = 0 ∧
    ((KeyMatrix.initial [10, 0]).emission sampleEnv).keyboardKeys 1 = 4 ∧
    ((KeyMatrix.initial [10, 1]).send sampleEnv).ret = false ∧
    sampleEnv.WF ∧
    (∀ c ∈ ordinaryCodes ((KeyMatrix.initial [0, 10]).emissionMode sampleEnv)
      (KeyMatrix.initial [0, 10]).pressedKeys_, c &&& 128 = 0) ∧
    ((KeyMatrix.initial [0, 10]).dropNoOutput sampleEnv).pressedKeys_ = [0] ∧
    (((KeyMatrix.initial [0, 10]).dropNoOutput sampleEnv).send sampleEnv).trace =
      ((KeyMatrix.initial [0, 10]).send sampleEnv).trace ∧
    ((KeyMatrix.initial [0, 10]).send sampleEnv).trace =
      [Event.keyboardReport 0 [4, 0, 0, 0, 0, 0]] ∧
    ((({ KeyMatrix.initial [4, 0] with currentMode_ := .shift } : KeyMatrix).dropNoOutput
      modifierEnv).send modifierEnv).trace =
      (({ KeyMatrix.initial [4, 0] with currentMode_ := .shift } : KeyMatrix).send
        modifierEnv).trace :=
  ⟨by decide,
   ((C10_trailing_no_output sampleEnv (KeyMatrix.initial [10, 0])).1 [] [0] 10 rfl (by decide)).2.2.1 0
     (by decide),
   (((C10_trailing_no_output sampleEnv (KeyMatrix.initial [10, 0])).1 [] [0] 10 rfl (by decide)).2.2.2 1
     (by decide)).trans (by decide),
   (((C10_trailing_no_output sampleEnv (KeyMatrix.initial [10, 1])).1 [] [1] 10 rfl (by decide)).2.1
     (by decide) ⟨0x84, by decide, by decide⟩).1,
   by decide, by decide, by decide,
   ((C10_trailing_no_output sampleEnv (KeyMatrix.initial [0, 10])).2 (by decide) (by decide)
     (by decide)).2.1,
   by decide,
   ((C10_trailing_no_output modifierEnv { KeyMatrix.initial [4, 0] with currentMode_ := .shift }).2
     (by decide) (by decide) (by decide)).2.1⟩

/-- C10 (counterexample): the no-output key 10 followed by the shifted key 1.
Key 10 counts as a plain key, so `send` discards the report and returns false;
with key 10 removed `send` returns true and emits a report.  With the plain key
0 in place of key 1, key 10 occupies the first report slot. -/
theorem C10_counterexample :
    (sampleEnv.mode (KeyMatrix.initial [10, 1]).currentMode_).keyCode 10 = 0 ∧
    ((KeyMatrix.initial [10, 1]).emissionMode sampleEnv).keyCode 10 = 0 ∧
    ((KeyMatrix.initial [10, 1]).dropNoOutput sampleEnv).pressedKeys_ = [1] ∧
    ((KeyMatrix.initial [10, 1]).send sampleEnv).ret = false ∧
    ((KeyMatrix.initial [10, 1]).send sampleEnv).trace = [] ∧
    (((KeyMatrix.initial [10, 1]).dropNoOutput sampleEnv).send sampleEnv).ret = true ∧
    (((KeyMatrix.initial [10, 1]).dropNoOutput sampleEnv).send sampleEnv).trace =
      [Event.keyboardReport 2 [4, 0, 0, 0, 0, 0]] ∧
    ((KeyMatrix.initial [10, 0]).send sampleEnv).trace =
      [Event.keyboardReport 0 [0, 4, 0, 0, 0, 0]] ∧
    (((KeyMatrix.initial [10, 0]).dropNoOutput sampleEnv).send sampleEnv).trace =
      [Event.keyboardReport 0 [4, 0, 0, 0, 0, 0]] := by
  decide

/-! ## Single-key scenarios -/

theorem scanModes_single_plain (E : Env) (s : KeyMatrix) (k : Nat)
    (hkeys : s.pressedKeys_ = [k])
    (hc : (E.mode s.currentMode_).keyCode k ∉ E.sentinels) :
    s.scanModes E = Scan.init := by
  unfold KeyMatrix.scanModes
  rw [hkeys]
  show scanSwitch E Scan.init ((E.mode s.currentMode_).keyCode k) = Scan.init
  exact scanSwitch_of_not_sentinel E _ _ hc

theorem not_sentinel_of_lt (E : Env) (hE : E.WF) (c : Nat) (hc : c < 0xf0) :
    c ∉ E.sentinels := by
  intro h
  have := (hE.2 c h).1
  omega

theorem ordinaryCodes_single (cur : Mode) (k : Nat) (h : cur.keyCode k < 0xf0) :
    ordinaryCodes cur [k] = [cur.keyCode k] := by
  rw [ordinaryCodes_cons_ordinary cur k [] h, ordinaryCodes_nil]

theorem toList6_emission_single (E : Env) (s : KeyMatrix) (k c : Nat)
    (hkeys : s.pressedKeys_ = [k]) (hcode : (s.emissionMode E).keyCode k = c)
    (hlt : c < 0xf0) :
    toList6 (s.emission E).keyboardKeys = [c % 128, 0, 0, 0, 0, 0] := by
  have hord : ordinaryCodes (s.emissionMode E) s.pressedKeys_ = [c] := by
    rw [hkeys, ordinaryCodes_single _ _ (by rw [hcode]; exact hlt), hcode]
  simp only [toList6, emission_keyboardKeys, hord, and_0x7f]
  rfl

theorem emission_flags_single (E : Env) (s : KeyMatrix) (k c : Nat)
    (hkeys : s.pressedKeys_ = [k]) (hcode : (s.emissionMode E).keyCode k = c)
    (hlt : c < 0xf0) :
    (s.emission E).shiftedKeys = decide (c &&& 128 ≠ 0) ∧
    (s.emission E).unshiftedKeys = decide (c &&& 128 = 0) := by
  have hord : ordinaryCodes (s.emissionMode E) s.pressedKeys_ = [c] := by
    rw [hkeys, ordinaryCodes_single _ _ (by rw [hcode]; exact hlt), hcode]
  rw [emission_shiftedKeys, emission_unshiftedKeys, hord]
  simp

/-- C11: from the neutral caches in Normal mode, for a snapshot of exactly one
key that resolves to the plain code 0x04, `send` sets the modifier byte to 0,
sets the key array to [0x04,0,0,0,0,0], emits exactly one keyboard report
carrying them (and nothing else), and returns true. -/
theorem C11_plain_key_scenario (E : Env) (hE : E.WF) (s : KeyMatrix) (k : Nat)
    (hmode : s.currentMode_ = .normal)
    (hkeys : s.pressedKeys_ = [k])
    (hcode : (E.mode .normal).keyCode k = 0x04)
    (hK : ∀ i, s.keyboardKeysPrev_ i = 0)
    (hM : ∀ j, s.mouseButtonsPrev_ j = 0) :
    (s.send E).state.keyboard_modifier_keys = 0x00 ∧
    toList6 (s.send E).state.keyboard_keys = [0x04, 0, 0, 0, 0, 0] ∧
    (s.send E).trace = [Event.keyboardReport 0x00 [0x04, 0, 0, 0, 0, 0]] ∧
    (s.send E).ret = true := by
  have hscan : s.scanModes E = Scan.init :=
    scanModes_single_plain E s k hkeys
      (by rw [hmode, hcode]; exact not_sentinel_of_lt E hE 4 (by decide))
  have hsel : (s.selectMode E).state.currentMode_ = .normal := by
    rw [selectMode_of_none E s (by rw [hscan]; rfl), hmode]
    rfl
  have hselT : (s.selectMode E).trace = [] := by
    unfold KeyMatrix.selectMode
    rw [hscan]
    simp [Scan.init, KeyMatrix.set, hmode, Env.mode, Mode.modal]
  have hem : (s.emissionMode E).keyCode k = 0x04 := by
    unfold KeyMatrix.emissionMode
    rw [hsel, hcode]
  have hkk := toList6_emission_single E s k 4 hkeys hem (by decide)
  have hfl := emission_flags_single E s k 4 hkeys hem (by decide)
  have hsh : (s.emission E).shiftedKeys = false := by rw [hfl.1]; decide
  have hd : ((s.emission E).shiftedKeys && (s.emission E).unshiftedKeys) = false := by
    rw [hsh]; rfl
  have hdiff : ∃ i, (s.emission E).keyboardKeys i ≠ s.keyboardKeysPrev_ i := by
    refine ⟨0, ?_⟩
    have h0 : (s.emission E).keyboardKeys 0 = 4 := by
      have := congrArg (fun l => l.getD 0 0) hkk
      simpa [toList6] using this
    rw [h0, hK 0]
    decide
  have hnm : ¬ ∃ j, (s.scanModes E).mouseButtons j ≠ s.mouseButtonsPrev_ j := by
    rintro ⟨j, hj⟩
    rw [hscan, hM j] at hj
    exact hj rfl
  refine ⟨?_, ?_, ?_, ?_⟩
  · rw [send_modifier E s hd, hsh, hscan]
    rfl
  · rw [(send_state E s hd).2.2.1, hkk]
  · rw [send_trace E s hd, hselT, if_pos hdiff, if_neg hnm, hsh, hscan, hkk]
    rfl
  · rw [send_ret E s hd]
    simp [hdiff]

/-- C11 (witness): key 0 of the sample configuration. -/
theorem C11_plain_key_scenario_witness :
    sampleEnv.WF ∧ (sampleEnv.mode .normal).keyCode 0 = 0x04 ∧
    ((KeyMatrix.initial [0]).send sampleEnv).trace =
      [Event.keyboardReport 0x00 [0x04, 0, 0, 0, 0, 0]] ∧
    ((KeyMatrix.initial [0]).send sampleEnv).ret = true :=
  ⟨by decide, by decide,
   (C11_plain_key_scenario sampleEnv (by decide) (KeyMatrix.initial [0]) 0 rfl rfl (by decide)
     (by decide) (by decide)).2.2.1,
   (C11_plain_key_scenario sampleEnv (by decide) (KeyMatrix.initial [0]) 0 rfl rfl (by decide)
     (by decide) (by decide)).2.2.2⟩

/-- C12: from the neutral caches, for a snapshot of exactly one key that
resolves to the shift-tagged code 0x84 (in the current mode and in the mode of
the emission pass), `send` sets the modifier byte to `MODIFIERKEY_SHIFT` (as a
byte), sets the key array to [0x04,0,0,0,0,0], emits exactly one keyboard
report carrying them, no mouse-button report, and returns true. -/
theorem C12_shifted_key_scenario (E : Env) (hE : E.WF) (s : KeyMatrix) (k : Nat)
    (hkeys : s.pressedKeys_ = [k])
    (hcur : (E.mode s.currentMode_).keyCode k = 0x84)
    (hcode : (s.emissionMode E).keyCode k = 0x84)
    (hK : ∀ i, s.keyboardKeysPrev_ i = 0)
    (hM : ∀ j, s.mouseButtonsPrev_ j = 0) :
    (s.send E).state.keyboard_modifier_keys = E.MODIFIERKEY_SHIFT % 256 ∧
    (E.MODIFIERKEY_SHIFT < 256 →
      (s.send E).state.keyboard_modifier_keys = E.MODIFIERKEY_SHIFT) ∧
    toList6 (s.send E).state.keyboard_keys = [0x04, 0, 0, 0, 0, 0] ∧
    keyboardReports (s.send E).trace =
      [Event.keyboardReport (E.MODIFIERKEY_SHIFT % 256) [0x04, 0, 0, 0, 0, 0]] ∧
    mouseButtonReports (s.send E).trace = [] ∧
    (s.send E).ret = true := by
  have hscan : s.scanModes E = Scan.init :=
    scanModes_single_plain E s k hkeys
      (by rw [hcur]; exact not_sentinel_of_lt E hE 0x84 (by decide))
  have hkk := toList6_emission_single E s k 0x84 hkeys hcode (by decide)
  have hfl := emission_flags_single E s k 0x84 hkeys hcode (by decide)
  have hsh : (s.emission E).shiftedKeys = true := by rw [hfl.1]; decide
  have hun : (s.emission E).unshiftedKeys = false := by rw [hfl.2]; decide
  have hd : ((s.emission E).shiftedKeys && (s.emission E).unshiftedKeys) = false := by
    rw [hsh, hun]; rfl
  have hdiff : ∃ i, (s.emission E).keyboardKeys i ≠ s.keyboardKeysPrev_ i := by
    refine ⟨0, ?_⟩
    have h0 : (s.emission E).keyboardKeys 0 = 4 := by
      have := congrArg (fun l => l.getD 0 0) hkk
      simpa [toList6] using this
    rw [h0, hK 0]
    decide
  have hnm : ¬ ∃ j, (s.scanModes E).mouseButtons j ≠ s.mouseButtonsPrev_ j := by
    rintro ⟨j, hj⟩
    rw [hscan, hM j] at hj
    exact hj rfl
  have hmod : (s.send E).state.keyboard_modifier_keys = E.MODIFIERKEY_SHIFT % 256 := by
    rw [send_modifier E s hd, hsh, hscan, if_pos rfl]
    show (0 ||| E.MODIFIERKEY_SHIFT) % 256 = _
    rw [Nat.zero_or]
  refine ⟨hmod, ?_, ?_, ?_, ?_, ?_⟩
  · intro hlt
    rw [hmod, Nat.mod_eq_of_lt hlt]
  · rw [(send_state E s hd).2.2.1, hkk]
  · rw [send_keyboardReports E s hd, if_pos hdiff, hsh, hscan, hkk, if_pos rfl]
    show [Event.keyboardReport ((0 ||| E.MODIFIERKEY_SHIFT) % 256) _] = _
    rw [Nat.zero_or]
  · rw [send_mouseButtonReports E s hd, if_neg hnm]
  · rw [send_ret E s hd]
    simp [hdiff]

/-- C12 (witness): key 1 of the sample configuration, whose shift mask is 2. -/
theorem C12_shifted_key_scenario_witness :
    sampleEnv.WF ∧ (sampleEnv.mode (KeyMatrix.initial [1]).currentMode_).keyCode 1 = 0x84 ∧
    ((KeyMatrix.initial [1]).emissionMode sampleEnv).keyCode 1 = 0x84 ∧
    keyboardReports ((KeyMatrix.initial [1]).send sampleEnv).trace =
      [Event.keyboardReport (sampleEnv.MODIFIERKEY_SHIFT % 256) [0x04, 0, 0, 0, 0, 0]] ∧
    ((KeyMatrix.initial [1]).send sampleEnv).ret = true :=
  ⟨by decide, by decide, by decide,
   (C12_shifted_key_scenario sampleEnv (by decide) (KeyMatrix.initial [1]) 1 rfl (by decide)
     (by decide) (by decide) (by decide)).2.2.2.1,
   (C12_shifted_key_scenario sampleEnv (by decide) (KeyMatrix.initial [1]) 1 rfl (by decide)
     (by decide) (by decide) (by decide)).2.2.2.2.2⟩

/-! ## `KeyMatrix::set` -/

/-- C13: `set(mode)` changes nothing and makes no delay when `mode` is already
the current mode; otherwise it makes the 200 ms delay exactly when the incoming
or the outgoing mode is modal, and afterwards the current mode is `mode`. -/
theorem C13_set_contract (E : Env) (s : KeyMatrix) (mode : ModeId) :
    (s.currentMode_ = mode → (s.set E mode).state = s ∧ (s.set E mode).trace = []) ∧
    (s.currentMode_ ≠ mode →
      ((s.set E mode).trace = [Event.delay 200] ↔
        ((E.mode mode).modal = true ∨ (E.mode s.currentMode_).modal = true)) ∧
      ((s.set E mode).trace = [] ↔
        ¬ ((E.mode mode).modal = true ∨ (E.mode s.currentMode_).modal = true)) ∧
      (s.set E mode).state.currentMode_ = mode ∧
      (s.set E mode).state = { s with currentMode_ := mode }) := by
  constructor
  · intro h
    unfold KeyMatrix.set
    rw [if_neg (by simpa using h)]
    exact ⟨rfl, rfl⟩
  · intro h
    unfold KeyMatrix.set
    rw [if_pos h]
    refine ⟨?_, ?_, rfl, rfl⟩
    · cases h1 : (E.mode mode).modal <;> cases h2 : (E.mode s.currentMode_).modal <;> simp
    · cases h1 : (E.mode mode).modal <;> cases h2 : (E.mode s.currentMode_).modal <;> simp

/-- C13 (witness): Normal to Mouse (modal) delays, Normal to Shift does not, and
Normal to Normal does nothing. -/
theorem C13_set_contract_witness :
    ((KeyMatrix.initial []).set sampleEnv .mouse).trace = [Event.delay 200] ∧
    ((KeyMatrix.initial []).set sampleEnv .mouse).state.currentMode_ = .mouse ∧
    ((KeyMatrix.initial []).set sampleEnv .shift).trace = [] ∧
    ((KeyMatrix.initial []).set sampleEnv .normal).trace = [] :=
  ⟨((C13_set_contract sampleEnv (KeyMatrix.initial []) .mouse).2 (by decide)).1.mpr (by decide),
   ((C13_set_contract sampleEnv (KeyMatrix.initial []) .mouse).2 (by decide)).2.2.1,
   ((C13_set_contract sampleEnv (KeyMatrix.initial []) .shift).2 (by decide)).2.1.mpr (by decide),
   ((C13_set_contract sampleEnv (KeyMatrix.initial []) .normal).1 (by decide)).2⟩

/-! ## Bytes of the report -/

theorem emission_key_le (E : Env) (s : KeyMatrix) (i : Fin 6) :
    (s.emission E).keyboardKeys i ≤ 0x7f := by
  rw [emission_keyboardKeys, and_0x7f]
  have := Nat.mod_lt ((ordinaryCodes (s.emissionMode E) s.pressedKeys_).getD i.val 0)
    (by decide : 128 > 0)
  omega

theorem mem_toList6 (a : Fin 6 → Nat) (c : Nat) (h : c ∈ toList6 a) : ∃ i, a i = c := by
  simp only [toList6, List.mem_cons, List.mem_singleton, List.not_mem_nil, or_false] at h
  rcases h with h | h | h | h | h | h
  · exact ⟨0, h.symm⟩
  · exact ⟨1, h.symm⟩
  · exact ⟨2, h.symm⟩
  · exact ⟨3, h.symm⟩
  · exact ⟨4, h.symm⟩
  · exact ⟨5, h.symm⟩

theorem selectMode_trace_not_report (E : Env) (s : KeyMatrix) (m : Nat) (keys : List Nat) :
    Event.keyboardReport m keys ∉ (s.selectMode E).trace := by
  rcases selectMode_trace E s with h | h <;> rw [h] <;> simp

theorem mouseReports_not_report (mb : Fin 3 → Nat) (m : Nat) (keys : List Nat) :
    Event.keyboardReport m keys ∉ mouseReports mb := by
  unfold mouseReports
  split <;> simp

/-- C14: every entry of the key array computed by `send` is at most 0x7F.  The
call either discards the report, leaving `keyboard_keys` and `keyboardKeysPrev_`
as they were and emitting no keyboard report, or it writes the computed array
into both; and every key of every keyboard report it emits is at most 0x7F, so
below 0xF0 and with bit 7 clear. -/
theorem C14_report_keys_are_ordinary (E : Env) (s : KeyMatrix) :
    (∀ i, (s.emission E).keyboardKeys i ≤ 0x7f) ∧
    (((s.send E).state.keyboard_keys = s.keyboard_keys ∧
        (s.send E).state.keyboardKeysPrev_ = s.keyboardKeysPrev_ ∧
        keyboardReports (s.send E).trace = []) ∨
      ((s.send E).state.keyboard_keys = (s.emission E).keyboardKeys ∧
        (s.send E).state.keyboardKeysPrev_ = (s.emission E).keyboardKeys)) ∧
    (∀ m keys, Event.keyboardReport m keys ∈ (s.send E).trace →
      ∀ c ∈ keys, c ≤ 0x7f ∧ c < 0xf0 ∧ c &&& 128 = 0) := by
  refine ⟨emission_key_le E s, ?_, ?_⟩
  · cases hd : ((s.emission E).shiftedKeys && (s.emission E).unshiftedKeys)
    · right
      exact ⟨(send_state E s hd).2.2.1, (send_state E s hd).1⟩
    · left
      rw [send_discard E s hd]
      refine ⟨?_, ?_, (selectMode_no_reports E s).1⟩
      · show (s.selectMode E).state.keyboard_keys = _
        rw [selectMode_state]
      · exact selectMode_keyboardKeysPrev E s
  · intro m keys hmem c hc
    have hle : c ≤ 0x7f := by
      cases hd : ((s.emission E).shiftedKeys && (s.emission E).unshiftedKeys)
      · rw [send_trace E s hd, List.mem_append, List.mem_append] at hmem
        rcases hmem with h | h | h
        · exact absurd h (selectMode_trace_not_report E s m keys)
        · split at h
          · rw [List.mem_singleton] at h
            injection h with _ hk
            rw [hk] at hc
            obtain ⟨i, hi⟩ := mem_toList6 _ c hc
            rw [← hi]
            exact emission_key_le E s i
          · simp at h
        · split at h
          · exact absurd h (mouseReports_not_report _ m keys)
          · simp at h
      · rw [send_discard E s hd] at hmem
        exact absurd hmem (selectMode_trace_not_report E s m keys)
    refine ⟨hle, by omega, ?_⟩
    apply Nat.eq_of_testBit_eq
    intro j
    rw [Nat.testBit_and, Nat.zero_testBit]
    by_cases hj : j = 7
    · subst hj
      have : c.testBit 7 = false := by
        rw [Nat.testBit_to_div_mod]
        simp
        omega
      rw [this]; rfl
    · have : (128 : Nat).testBit j = false := by
        have h128 : (128 : Nat) = 2 ^ 7 := by norm_num
        rw [h128, Nat.testBit_two_pow]
        simp
        omega
      rw [this, Bool.and_false]

/-- C14 (witness): the report emitted for the shifted key 1 carries 0x04, not
0x84. -/
theorem C14_report_keys_are_ordinary_witness :
    Event.keyboardReport 2 [4, 0, 0, 0, 0, 0] ∈ ((KeyMatrix.initial [1]).send sampleEnv).trace ∧
    (4 : Nat) ≤ 0x7f ∧ (4 : Nat) < 0xf0 ∧ (4 : Nat) &&& 128 = 0 :=
  ⟨by decide,
   (C14_report_keys_are_ordinary sampleEnv (KeyMatrix.initial [1])).2.2 2 [4, 0, 0, 0, 0, 0]
     (by decide) 4 (by decide)⟩

/-! ## The cache and the last transmitted report -/

theorem lastKeysFrom_append (d : List Nat) (t1 t2 : List Event) :
    lastKeysFrom d (t1 ++ t2) = lastKeysFrom (lastKeysFrom d t1) t2 := by
  unfold lastKeysFrom
  rw [List.foldl_append]

theorem lastButtonsFrom_append (d : List Nat) (t1 t2 : List Event) :
    lastButtonsFrom d (t1 ++ t2) = lastButtonsFrom (lastButtonsFrom d t1) t2 := by
  unfold lastButtonsFrom
  rw [List.foldl_append]

theorem lastKeysFrom_selectMode (E : Env) (s : KeyMatrix) (d : List Nat) :
    lastKeysFrom d (s.selectMode E).trace = d := by
  rcases selectMode_trace E s with h | h <;> rw [h] <;> rfl

theorem lastButtonsFrom_selectMode (E : Env) (s : KeyMatrix) (d : List Nat) :
    lastButtonsFrom d (s.selectMode E).trace = d := by
  rcases selectMode_trace E s with h | h <;> rw [h] <;> rfl

theorem lastKeysFrom_mouseReports (mb : Fin 3 → Nat) (d : List Nat) :
    lastKeysFrom d (mouseReports mb) = d := by
  unfold mouseReports
  split <;> rfl

theorem lastButtonsFrom_mouseReports (mb : Fin 3 → Nat) (d : List Nat) :
    lastButtonsFrom d (mouseReports mb) = wireButtons mb := by
  unfold mouseReports wireButtons
  split <;> rfl

theorem toList6_congr (a b : Fin 6 → Nat) (h : ∀ i, a i = b i) : toList6 a = toList6 b := by
  rw [funext h]

theorem toList3_congr (a b : Fin 3 → Nat) (h : ∀ i, a i = b i) : toList3 a = toList3 b := by
  rw [funext h]

theorem lastKeysFrom_mousePart (c : Prop) [Decidable c] (mb : Fin 3 → Nat) (d : List Nat) :
    lastKeysFrom d (if c then mouseReports mb else []) = d := by
  split
  · exact lastKeysFrom_mouseReports mb d
  · rfl

theorem send_lastKeys (E : Env) (s : KeyMatrix) :
    lastKeysFrom (toList6 s.keyboardKeysPrev_) (s.send E).trace =
      toList6 (s.send E).state.keyboardKeysPrev_ := by
  cases hd : ((s.emission E).shiftedKeys && (s.emission E).unshiftedKeys)
  · rw [send_trace E s hd, (send_state E s hd).1, lastKeysFrom_append, lastKeysFrom_append,
      lastKeysFrom_selectMode, lastKeysFrom_mousePart]
    by_cases hk : ∃ i, (s.emission E).keyboardKeys i ≠ s.keyboardKeysPrev_ i
    · rw [if_pos hk]
      rfl
    · rw [if_neg hk]
      have heq : ∀ i, s.keyboardKeysPrev_ i = (s.emission E).keyboardKeys i := by
        intro i
        by_contra hne
        exact hk ⟨i, fun he => hne he.symm⟩
      rw [toList6_congr _ _ heq]
      rfl
  · rw [send_discard E s hd]
    show lastKeysFrom _ (s.selectMode E).trace = toList6 (s.selectMode E).state.keyboardKeysPrev_
    rw [lastKeysFrom_selectMode, selectMode_keyboardKeysPrev]

theorem send_lastButtons (E : Env) (s : KeyMatrix) :
    lastButtonsFrom (wireButtons s.mouseButtonsPrev_) (s.send E).trace =
      wireButtons (s.send E).state.mouseButtonsPrev_ := by
  cases hd : ((s.emission E).shiftedKeys && (s.emission E).unshiftedKeys)
  · rw [send_trace E s hd, (send_state E s hd).2.1, lastButtonsFrom_append,
      lastButtonsFrom_append, lastButtonsFrom_selectMode]
    have hkb : lastButtonsFrom (wireButtons s.mouseButtonsPrev_)
        (if (∃ i, (s.emission E).keyboardKeys i ≠ s.keyboardKeysPrev_ i) then
          [Event.keyboardReport
            (if (s.emission E).shiftedKeys
              then ((s.scanModes E).modifiers ||| E.MODIFIERKEY_SHIFT) % 256
              else (s.scanModes E).modifiers)
            (toList6 (s.emission E).keyboardKeys)]
        else []) = wireButtons s.mouseButtonsPrev_ := by
      split <;> rfl
    rw [hkb]
    by_cases hm : ∃ j, (s.scanModes E).mouseButtons j ≠ s.mouseButtonsPrev_ j
    · rw [if_pos hm, lastButtonsFrom_mouseReports]
    · rw [if_neg hm]
      have heq : s.mouseButtonsPrev_ = (s.scanModes E).mouseButtons := by
        funext j
        by_contra hne
        exact hm ⟨j, fun he => hne he.symm⟩
      rw [heq]
      rfl
  · rw [send_discard E s hd]
    show lastButtonsFrom _ (s.selectMode E).trace = wireButtons (s.selectMode E).state.mouseButtonsPrev_
    rw [lastButtonsFrom_selectMode, selectMode_mouseButtonsPrev]

theorem wake_lastKeys (E : Env) (s : KeyMatrix) (d : List Nat) :
    lastKeysFrom d (s.wake E).trace = [0, 0, 0, 0, 0, 0] := by
  have h1 : ∀ f : Fin 6 → Nat,
      Function.update (Function.update (Function.update (Function.update (Function.update
        (Function.update f 0 0) 1 0) 2 0) 3 0) 4 0) 5 0 = fun _ => 0 := by
    intro f
    funext i
    fin_cases i <;> simp [Function.update]
  simp only [KeyMatrix.wake, resetBuffer, List.foldl, h1, KeyMatrix.send_now, lastKeysFrom,
    toList6]

theorem wake_lastButtons (E : Env) (s : KeyMatrix) (d : List Nat) :
    lastButtonsFrom d (s.wake E).trace = d := by
  simp only [KeyMatrix.wake, KeyMatrix.send_now, lastButtonsFrom, List.foldl]

theorem run_invariant (E : Env) (calls : List Call) (s : KeyMatrix) (t : List Event)
    (hK : toList6 s.keyboardKeysPrev_ = lastKeyboardKeys t)
    (hM : lastMouseButtons t = wireButtons s.mouseButtonsPrev_)
    (hw : KeyMatrix.wakesNeutral E calls s = true) :
    toList6 (KeyMatrix.run E calls s t).1.keyboardKeysPrev_ =
        lastKeyboardKeys (KeyMatrix.run E calls s t).2 ∧
      lastMouseButtons (KeyMatrix.run E calls s t).2 =
        wireButtons (KeyMatrix.run E calls s t).1.mouseButtonsPrev_ := by
  induction calls generalizing s t with
  | nil => exact ⟨hK, hM⟩
  | cons c rest ih =>
    cases c with
    | send keys =>
      have hw2 : KeyMatrix.wakesNeutral E rest ((s.scanned keys).send E).state = true := hw
      show toList6 (KeyMatrix.run E rest _ _).1.keyboardKeysPrev_ = _ ∧ _
      refine ih _ _ ?_ ?_ hw2
      · unfold lastKeyboardKeys at hK ⊢
        rw [lastKeysFrom_append, ← hK]
        exact (send_lastKeys E (s.scanned keys)).symm
      · unfold lastMouseButtons at hM ⊢
        rw [lastButtonsFrom_append, hM]
        exact send_lastButtons E (s.scanned keys)
    | wake =>
      have hw1 : KeyMatrix.wakesNeutral E (Call.wake :: rest) s =
          (decide (∀ i, s.keyboardKeysPrev_ i = 0) &&
            KeyMatrix.wakesNeutral E rest (s.wake E).state) := rfl
      rw [hw1, Bool.and_eq_true, decide_eq_true_eq] at hw
      show toList6 (KeyMatrix.run E rest _ _).1.keyboardKeysPrev_ = _ ∧ _
      refine ih _ _ ?_ ?_ hw.2
      · unfold lastKeyboardKeys
        rw [lastKeysFrom_append, wake_lastKeys, wake_state]
        show toList6 s.keyboardKeysPrev_ = _
        simp only [toList6, hw.1]
      · unfold lastMouseButtons at hM ⊢
        rw [lastButtonsFrom_append, wake_lastButtons, hM, wake_state]

theorem run_buttons (E : Env) (calls : List Call) (s : KeyMatrix) (t : List Event)
    (hM : lastMouseButtons t = wireButtons s.mouseButtonsPrev_) :
    lastMouseButtons (KeyMatrix.run E calls s t).2 =
      wireButtons (KeyMatrix.run E calls s t).1.mouseButtonsPrev_ := by
  induction calls generalizing s t with
  | nil => exact hM
  | cons c rest ih =>
    cases c with
    | send keys =>
      show lastMouseButtons (KeyMatrix.run E rest _ _).2 = _
      refine ih _ _ ?_
      unfold lastMouseButtons at hM ⊢
      rw [lastButtonsFrom_append, hM]
      exact send_lastButtons E (s.scanned keys)
    | wake =>
      show lastMouseButtons (KeyMatrix.run E rest _ _).2 = _
      refine ih _ _ ?_
      unfold lastMouseButtons at hM ⊢
      rw [lastButtonsFrom_append, wake_lastButtons, hM, wake_state]

/-- C15 (amended): over every sequence of `send` and `wake` calls from the
neutral state, the button triple of the most recently transmitted mouse-button
report (all zero before any) is `mouseButtonsPrev_`, with the double-click code
2 in its first slot standing for the closing press (1,0,0); and when each `wake`
of the sequence runs while the key cache is all zero, `keyboardKeysPrev_` equals
the key array of the most recently transmitted keyboard report (all zero before
any). -/
theorem C15_cache_tracks_reports (E : Env) (calls : List Call) (keys : List Nat) :
    lastMouseButtons (KeyMatrix.run E calls (KeyMatrix.initial keys) []).2 =
        wireButtons (KeyMatrix.run E calls (KeyMatrix.initial keys) []).1.mouseButtonsPrev_ ∧
      (KeyMatrix.wakesNeutral E calls (KeyMatrix.initial keys) = true →
        toList6 (KeyMatrix.run E calls (KeyMatrix.initial keys) []).1.keyboardKeysPrev_ =
          lastKeyboardKeys (KeyMatrix.run E calls (KeyMatrix.initial keys) []).2) :=
  ⟨run_buttons E calls (KeyMatrix.initial keys) [] rfl,
   fun hw => (run_invariant E calls (KeyMatrix.initial keys) [] rfl rfl hw).1⟩

/-- C15 (witness): key 0 pressed, released, a `wake`, then the first mouse
button (key 11), for the key cache; key 0 with the first mouse button, then a
`wake` while the key cache holds 0x04, for the button cache. -/
theorem C15_cache_tracks_reports_witness :
    KeyMatrix.wakesNeutral sampleEnv [.send [0], .send [], .wake, .send [11]]
      (KeyMatrix.initial []) = true ∧
    toList6 (KeyMatrix.run sampleEnv [.send [0], .send [], .wake, .send [11]]
      (KeyMatrix.initial []) []).1.keyboardKeysPrev_ =
        lastKeyboardKeys (KeyMatrix.run sampleEnv [.send [0], .send [], .wake, .send [11]]
          (KeyMatrix.initial []) []).2 ∧
    lastMouseButtons (KeyMatrix.run sampleEnv [.send [0], .send [], .wake, .send [11]]
      (KeyMatrix.initial []) []).2 = [1, 0, 0] ∧
    KeyMatrix.wakesNeutral sampleEnv [.send [0, 11], .wake] (KeyMatrix.initial []) = false ∧
    lastMouseButtons (KeyMatrix.run sampleEnv [.send [0, 11], .wake]
      (KeyMatrix.initial []) []).2 = [1, 0, 0] :=
  ⟨by decide,
   (C15_cache_tracks_reports sampleEnv [.send [0], .send [], .wake, .send [11]] []).2
     (by decide),
   ((C15_cache_tracks_reports sampleEnv [.send [0], .send [], .wake, .send [11]] []).1).trans
     (by decide),
   by decide,
   ((C15_cache_tracks_reports sampleEnv [.send [0, 11], .wake] []).1).trans (by decide)⟩

/-- C15 (counterexample): after `send` with key 0 (0x04) and then `wake`, the key
cache holds 0x04 while the last transmitted keyboard report carries all-zero
keys; after `send` with the double-click key 9 the button cache holds (2,0,0)
while the last transmitted mouse-button report is (1,0,0). -/
theorem C15_counterexample :
    toList6 (KeyMatrix.run sampleEnv [.send [0], .wake]
      (KeyMatrix.initial []) []).1.keyboardKeysPrev_ = [4, 0, 0, 0, 0, 0] ∧
    lastKeyboardKeys (KeyMatrix.run sampleEnv [.send [0], .wake]
      (KeyMatrix.initial []) []).2 = [0, 0, 0, 0, 0, 0] ∧
    toList3 (KeyMatrix.run sampleEnv [.send [9]]
      (KeyMatrix.initial []) []).1.mouseButtonsPrev_ = [2, 0, 0] ∧
    lastMouseButtons (KeyMatrix.run sampleEnv [.send [9]]
      (KeyMatrix.initial []) []).2 = [1, 0, 0] := by
  decide

/-! ## The modifier byte -/

theorem or_mod_byte (x y z : Nat) (b : Bool) :
    ((x ||| y) % 256 ||| maskIf b y ||| z) % 256 = (x ||| y ||| z) % 256 := by
  have h256 : (256 : Nat) = 2 ^ 8 := by norm_num
  apply Nat.eq_of_testBit_eq
  intro i
  cases b <;>
    simp only [maskIf, h256, Nat.testBit_mod_two_pow, Nat.testBit_or, if_true, if_false,
      Bool.false_eq_true, Nat.zero_testBit, Bool.or_false] <;>
    generalize decide (i < 8) = p <;> generalize x.testBit i = q <;>
    generalize y.testBit i = r <;> generalize z.testBit i = t <;>
    cases p <;> cases q <;> cases r <;> cases t <;> rfl

theorem or_mod_byte_right (x y z : Nat) (b : Bool) :
    ((x ||| z) % 256 ||| y ||| maskIf b z) % 256 = (x ||| y ||| z) % 256 := by
  have h256 : (256 : Nat) = 2 ^ 8 := by norm_num
  apply Nat.eq_of_testBit_eq
  intro i
  cases b <;>
    simp only [maskIf, h256, Nat.testBit_mod_two_pow, Nat.testBit_or, if_true, if_false,
      Bool.false_eq_true, Nat.zero_testBit, Bool.or_false] <;>
    generalize decide (i < 8) = p <;> generalize x.testBit i = q <;>
    generalize y.testBit i = r <;> generalize z.testBit i = t <;>
    cases p <;> cases q <;> cases r <;> cases t <;> rfl

theorem or_mod_left (x y : Nat) : (x % 256 ||| y) % 256 = (x ||| y) % 256 := by
  have h256 : (256 : Nat) = 2 ^ 8 := by norm_num
  apply Nat.eq_of_testBit_eq
  intro i
  simp only [h256, Nat.testBit_mod_two_pow, Nat.testBit_or]
  generalize decide (i < 8) = p
  generalize x.testBit i = q
  generalize y.testBit i = r
  cases p <;> cases q <;> cases r <;> rfl

theorem scanSwitch_modifiers (E : Env) (hE : E.WF) (a : Scan) (c : Nat) :
    (scanSwitch E a c).modifiers =
      if c = E.DH_KEY_CTRL then (a.modifiers ||| E.MODIFIERKEY_CTRL) % 256
      else if c = E.DH_KEY_ALT then (a.modifiers ||| E.MODIFIERKEY_ALT) % 256
      else a.modifiers := by
  have hne : ∀ (i : Fin 11), i ≠ 5 → i ≠ 6 → c = E.sentinels.get ⟨i.val, i.isLt⟩ →
      c ≠ E.DH_KEY_CTRL ∧ c ≠ E.DH_KEY_ALT := by
    intro i h5 h6 hc
    rw [hc]
    exact ⟨sentinel_ne E hE i 5 h5, sentinel_ne E hE i 6 h6⟩
  rcases scanSwitch_cases E a c with h | h | h | h | h | h | h | h | h | h | h | h
  · rw [h.2, if_neg (hne 0 (by decide) (by decide) h.1).1,
      if_neg (hne 0 (by decide) (by decide) h.1).2]
  · rw [h.2, if_neg (hne 1 (by decide) (by decide) h.1).1,
      if_neg (hne 1 (by decide) (by decide) h.1).2]
  · rw [h.2, if_neg (hne 2 (by decide) (by decide) h.1).1,
      if_neg (hne 2 (by decide) (by decide) h.1).2]
  · rw [h.2, if_neg (hne 3 (by decide) (by decide) h.1).1,
      if_neg (hne 3 (by decide) (by decide) h.1).2]
  · rw [h.2, if_neg (hne 4 (by decide) (by decide) h.1).1,
      if_neg (hne 4 (by decide) (by decide) h.1).2]
  · rw [h.2, if_pos h.1]
  · have hca : c ≠ E.DH_KEY_CTRL := by
      rw [h.1]; exact sentinel_ne E hE 6 5 (by decide)
    rw [h.2, if_neg hca, if_pos h.1]
  · rw [h.2, if_neg (hne 7 (by decide) (by decide) h.1).1,
      if_neg (hne 7 (by decide) (by decide) h.1).2]
  · rw [h.2, if_neg (hne 8 (by decide) (by decide) h.1).1,
      if_neg (hne 8 (by decide) (by decide) h.1).2]
  · rw [h.2, if_neg (hne 9 (by decide) (by decide) h.1).1,
      if_neg (hne 9 (by decide) (by decide) h.1).2]
  · rw [h.2, if_neg (hne 10 (by decide) (by decide) h.1).1,
      if_neg (hne 10 (by decide) (by decide) h.1).2]
  · have h5 : c ≠ E.DH_KEY_CTRL := fun hc => h.1 (by rw [hc]; simp [Env.sentinels])
    have h6 : c ≠ E.DH_KEY_ALT := fun hc => h.1 (by rw [hc]; simp [Env.sentinels])
    rw [h.2, if_neg h5, if_neg h6]

theorem scanLoop_modifiers (E : Env) (hE : E.WF) (cur : Mode) (keys : List Nat) (a : Scan)
    (ha : a.modifiers < 256) :
    (scanLoop E cur keys a).modifiers =
      (a.modifiers ||| maskIf (anyResolves cur keys E.DH_KEY_CTRL) E.MODIFIERKEY_CTRL |||
        maskIf (anyResolves cur keys E.DH_KEY_ALT) E.MODIFIERKEY_ALT) % 256 := by
  induction keys generalizing a with
  | nil =>
    show a.modifiers = (a.modifiers ||| 0 ||| 0) % 256
    rw [Nat.or_zero, Nat.or_zero, Nat.mod_eq_of_lt ha]
  | cons k rest ih =>
    show (scanLoop E cur rest (scanSwitch E a (cur.keyCode k))).modifiers = _
    have hstep := scanSwitch_modifiers E hE a (cur.keyCode k)
    have hctrl : anyResolves cur (k :: rest) E.DH_KEY_CTRL =
        (decide (cur.keyCode k = E.DH_KEY_CTRL) || anyResolves cur rest E.DH_KEY_CTRL) := rfl
    have halt : anyResolves cur (k :: rest) E.DH_KEY_ALT =
        (decide (cur.keyCode k = E.DH_KEY_ALT) || anyResolves cur rest E.DH_KEY_ALT) := rfl
    by_cases h5 : cur.keyCode k = E.DH_KEY_CTRL
    · have h6 : cur.keyCode k ≠ E.DH_KEY_ALT := by
        rw [h5]; exact sentinel_ne E hE 5 6 (by decide)
      rw [if_pos h5] at hstep
      rw [ih _ (by rw [hstep]; exact Nat.mod_lt _ (by decide)), hstep, hctrl, halt,
        decide_eq_true h5, decide_eq_false h6, Bool.true_or, Bool.false_or]
      show _ = (a.modifiers ||| E.MODIFIERKEY_CTRL ||| _) % 256
      exact or_mod_byte _ _ _ _
    · rw [if_neg h5] at hstep
      by_cases h6 : cur.keyCode k = E.DH_KEY_ALT
      · rw [if_pos h6] at hstep
        rw [ih _ (by rw [hstep]; exact Nat.mod_lt _ (by decide)), hstep, hctrl, halt,
          decide_eq_false h5, decide_eq_true h6, Bool.true_or, Bool.false_or]
        show _ = (a.modifiers ||| _ ||| E.MODIFIERKEY_ALT) % 256
        exact or_mod_byte_right _ _ _ _
      · rw [if_neg h6] at hstep
        rw [ih _ (by rw [hstep]; exact ha), hstep, hctrl, halt,
          decide_eq_false h5, decide_eq_false h6, Bool.false_or, Bool.false_or]

theorem shifted_iff_emitsShifted (E : Env) (s : KeyMatrix)
    (hnd : ¬ ((s.emission E).shiftedKeys = true ∧ (s.emission E).unshiftedKeys = true)) :
    (s.emission E).shiftedKeys = s.emitsShifted E := by
  rw [emission_shiftedKeys] at hnd ⊢
  rw [emission_unshiftedKeys] at hnd
  unfold KeyMatrix.emitsShifted
  generalize ordinaryCodes (s.emissionMode E) s.pressedKeys_ = l at hnd ⊢
  cases l with
  | nil => rfl
  | cons c rest =>
    by_cases hc : c &&& 128 = 0
    · have hun : ((c :: rest).take 7).any (fun c => decide (c &&& 128 = 0)) = true := by
        simp [hc]
      have hsh : ((c :: rest).take 7).any (fun c => decide (c &&& 128 ≠ 0)) = false := by
        cases h : ((c :: rest).take 7).any (fun c => decide (c &&& 128 ≠ 0))
        · rfl
        · exact absurd ⟨h, hun⟩ hnd
      rw [hsh]
      symm
      rw [List.any_eq_false] at hsh ⊢
      intro x hx
      exact hsh x (List.take_subset_take_left _ (by decide : 6 ≤ 7) hx)
    · have h6 : ((c :: rest).take 6).any (fun c => decide (c &&& 128 ≠ 0)) = true := by
        simp [hc]
      have h7 : ((c :: rest).take 7).any (fun c => decide (c &&& 128 ≠ 0)) = true := by
        simp [hc]
      rw [h6, h7]

/-- C16: when the report is not discarded by the shift-conflict test, the
modifier byte handed to the transport is the OR, taken as a byte, of
`MODIFIERKEY_CTRL` if some key resolves to `DH_KEY_CTRL`, `MODIFIERKEY_ALT` if
some key resolves to `DH_KEY_ALT` (both in the current mode), and
`MODIFIERKEY_SHIFT` exactly when some key placed in the report is shift-tagged;
when the three masks are bytes it is that OR itself. -/
theorem C16_modifier_byte (E : Env) (hE : E.WF) (s : KeyMatrix)
    (hnd : ¬ ((s.emission E).shiftedKeys = true ∧ (s.emission E).unshiftedKeys = true)) :
    (s.send E).state.keyboard_modifier_keys =
      (maskIf (anyResolves (E.mode s.currentMode_) s.pressedKeys_ E.DH_KEY_CTRL)
          E.MODIFIERKEY_CTRL |||
        maskIf (anyResolves (E.mode s.currentMode_) s.pressedKeys_ E.DH_KEY_ALT)
          E.MODIFIERKEY_ALT |||
        maskIf (s.emitsShifted E) E.MODIFIERKEY_SHIFT) % 256 ∧
    (E.MODIFIERKEY_CTRL < 256 → E.MODIFIERKEY_ALT < 256 → E.MODIFIERKEY_SHIFT < 256 →
      (s.send E).state.keyboard_modifier_keys =
        (maskIf (anyResolves (E.mode s.currentMode_) s.pressedKeys_ E.DH_KEY_CTRL)
            E.MODIFIERKEY_CTRL |||
          maskIf (anyResolves (E.mode s.currentMode_) s.pressedKeys_ E.DH_KEY_ALT)
            E.MODIFIERKEY_ALT |||
          maskIf (s.emitsShifted E) E.MODIFIERKEY_SHIFT)) := by
  have hd := discard_false_of_not _ hnd
  have hmods : (s.scanModes E).modifiers =
      (maskIf (anyResolves (E.mode s.currentMode_) s.pressedKeys_ E.DH_KEY_CTRL)
          E.MODIFIERKEY_CTRL |||
        maskIf (anyResolves (E.mode s.currentMode_) s.pressedKeys_ E.DH_KEY_ALT)
          E.MODIFIERKEY_ALT) % 256 := by
    unfold KeyMatrix.scanModes
    rw [scanLoop_modifiers E hE _ _ Scan.init (by decide)]
    show (0 ||| _ ||| _) % 256 = _
    rw [Nat.zero_or]
  have hmain : (s.send E).state.keyboard_modifier_keys =
      (maskIf (anyResolves (E.mode s.currentMode_) s.pressedKeys_ E.DH_KEY_CTRL)
          E.MODIFIERKEY_CTRL |||
        maskIf (anyResolves (E.mode s.currentMode_) s.pressedKeys_ E.DH_KEY_ALT)
          E.MODIFIERKEY_ALT |||
        maskIf (s.emitsShifted E) E.MODIFIERKEY_SHIFT) % 256 := by
    rw [send_modifier E s hd, shifted_iff_emitsShifted E s hnd, hmods]
    cases s.emitsShifted E
    · rw [if_neg (by simp)]
      show _ = (_ ||| 0) % 256
      rw [Nat.or_zero]
    · rw [if_pos rfl]
      show _ = (_ ||| E.MODIFIERKEY_SHIFT) % 256
      exact or_mod_left _ _
  refine ⟨hmain, ?_⟩
  intro hc ha hs
  rw [hmain]
  apply Nat.mod_eq_of_lt
  have h1 : ∀ (b : Bool) (m : Nat), m < 256 → maskIf b m < 2 ^ 8 := by
    intro b m hm
    unfold maskIf
    split <;> omega
  exact Nat.or_lt_two_pow (Nat.or_lt_two_pow (h1 _ _ hc) (h1 _ _ ha)) (h1 _ _ hs)

/-- C16 (witness): Ctrl, Alt and the shifted key 1 give the byte 1 | 4 | 2. -/
theorem C16_modifier_byte_witness :
    modifierEnv.WF ∧
    ¬ (((KeyMatrix.initial [2, 3, 1]).emission modifierEnv).shiftedKeys = true ∧
        ((KeyMatrix.initial [2, 3, 1]).emission modifierEnv).unshiftedKeys = true) ∧
    ((KeyMatrix.initial [2, 3, 1]).send modifierEnv).state.keyboard_modifier_keys = 7 :=
  ⟨by decide, by decide,
   ((C16_modifier_byte modifierEnv (by decide) (KeyMatrix.initial [2, 3, 1]) (by decide)).1).trans
     (by decide)⟩

/-! ## Repeated calls -/

theorem send_pressedKeys (E : Env) (s : KeyMatrix) :
    (s.send E).state.pressedKeys_ = s.pressedKeys_ := by
  cases hd : ((s.emission E).shiftedKeys && (s.emission E).unshiftedKeys)
  · exact (send_state E s hd).2.2.2.2
  · rw [send_discard E s hd]
    show (s.selectMode E).state.pressedKeys_ = _
    rw [selectMode_state]

/-- C18 (amended): when several pressed keys resolve under the current mode to
mode-select sentinels, the mode `send` activates is the one selected by the
last such key in scan order. -/
theorem C18_last_mode_key_wins (E : Env) (s : KeyMatrix) (pre post : List Nat) (k : Nat)
    (hkeys : s.pressedKeys_ = pre ++ k :: post)
    (hk : (E.mode s.currentMode_).keyCode k ∈ E.modeSelectCodes)
    (hpost : ∀ k' ∈ post, (E.mode s.currentMode_).keyCode k' ∉ E.modeSelectCodes) :
    E.selectedMode ((E.mode s.currentMode_).keyCode k) = some (s.send E).state.currentMode_ := by
  have hmode : (s.scanModes E).mode = E.selectedMode ((E.mode s.currentMode_).keyCode k) := by
    unfold KeyMatrix.scanModes
    rw [hkeys, scanLoop_append]
    show (scanLoop E _ post (scanSwitch E _ ((E.mode s.currentMode_).keyCode k))).mode = _
    rw [scanLoop_mode_of_not_select E _ post _ hpost]
    exact (scanSwitch_mode_of_select E _ _ hk).1
  have hsome := (scanSwitch_mode_of_select E Scan.init _ hk).2
  cases hsel : E.selectedMode ((E.mode s.currentMode_).keyCode k) with
  | none => exact absurd hsel hsome
  | some m =>
    rw [hsel] at hmode
    rw [send_currentMode, selectMode_of_some E s m hmode]

/-- C18 (witness): key 8 (shift mode) then key 12 (mouse mode) activates the
mouse mode. -/
theorem C18_last_mode_key_wins_witness :
    (sampleEnv.mode (KeyMatrix.initial [8, 12]).currentMode_).keyCode 12 ∈
      sampleEnv.modeSelectCodes ∧
    ((KeyMatrix.initial [8, 12]).send sampleEnv).state.currentMode_ = .mouse :=
  ⟨by decide,
   (Option.some.inj ((C18_last_mode_key_wins sampleEnv (KeyMatrix.initial [8, 12]) [8] [] 12 rfl
     (by decide) (by simp)).symm.trans (by decide)))⟩

/-- C18 (counterexample): keys 8 and 12 resolve in Normal mode to `DH_KEY_SHIFT`
and `DH_KEY_MOUSE`; the first in scan order selects the shift mode, and `send`
activates the mouse mode. -/
theorem C18_counterexample :
    (KeyMatrix.initial [8, 12]).pressedKeys_ = [8, 12] ∧
    (sampleEnv.mode (KeyMatrix.initial [8, 12]).currentMode_).keyCode 8 =
      sampleEnv.DH_KEY_SHIFT ∧
    (sampleEnv.mode (KeyMatrix.initial [8, 12]).currentMode_).keyCode 12 =
      sampleEnv.DH_KEY_MOUSE ∧
    sampleEnv.selectedMode ((sampleEnv.mode (KeyMatrix.initial [8, 12]).currentMode_).keyCode 8) =
      some .shift ∧
    ((KeyMatrix.initial [8, 12]).send sampleEnv).state.currentMode_ = .mouse ∧
    ((KeyMatrix.initial [8, 12]).send sampleEnv).state.currentMode_ ≠ .shift := by
  decide

/-- C19: when the computed key array equals `keyboardKeysPrev_` and the computed
button triple equals `mouseButtonsPrev_`, `send` emits no keyboard report (and no
mouse-button report) and returns false, whatever modifier byte it computes. -/
theorem C19_modifier_change_unreported (E : Env) (s : KeyMatrix)
    (hk : ∀ i, (s.emission E).keyboardKeys i = s.keyboardKeysPrev_ i)
    (hm : ∀ j, (s.scanModes E).mouseButtons j = s.mouseButtonsPrev_ j) :
    keyboardReports (s.send E).trace = [] ∧
    mouseButtonReports (s.send E).trace = [] ∧
    (s.send E).ret = false := by
  have hnk : ¬ ∃ i, (s.emission E).keyboardKeys i ≠ s.keyboardKeysPrev_ i := by
    rintro ⟨i, hi⟩
    exact hi (hk i)
  have hnm : ¬ ∃ j, (s.scanModes E).mouseButtons j ≠ s.mouseButtonsPrev_ j := by
    rintro ⟨j, hj⟩
    exact hj (hm j)
  cases hd : ((s.emission E).shiftedKeys && (s.emission E).unshiftedKeys)
  · refine ⟨?_, ?_, ?_⟩
    · rw [send_keyboardReports E s hd, if_neg hnk]
    · rw [send_mouseButtonReports E s hd, if_neg hnm]
    · rw [send_ret E s hd, decide_eq_false hnk, decide_eq_false hnm]
      rfl
  · rw [send_discard E s hd]
    exact ⟨(selectMode_no_reports E s).1, (selectMode_no_reports E s).2, rfl⟩

/-- C19 (witness): key 0 (0x04) is sent, then Ctrl (key 2) is pressed as well: the
modifier byte goes from 0 to 1, no report is emitted and `send` returns false. -/
theorem C19_modifier_change_unreported_witness :
    ((KeyMatrix.initial [0]).send modifierEnv).state.keyboard_modifier_keys = 0 ∧
    ((((KeyMatrix.initial [0]).send modifierEnv).state.scanned [0, 2]).send
      modifierEnv).state.keyboard_modifier_keys = 1 ∧
    keyboardReports ((((KeyMatrix.initial [0]).send modifierEnv).state.scanned [0, 2]).send
      modifierEnv).trace = [] ∧
    ((((KeyMatrix.initial [0]).send modifierEnv).state.scanned [0, 2]).send
      modifierEnv).ret = false :=
  ⟨by decide, by decide,
   (C19_modifier_change_unreported modifierEnv
     (((KeyMatrix.initial [0]).send modifierEnv).state.scanned [0, 2])
     (by decide) (by decide)).1,
   (C19_modifier_change_unreported modifierEnv
     (((KeyMatrix.initial [0]).send modifierEnv).state.scanned [0, 2])
     (by decide) (by decide)).2.2⟩

/-! ## The idle counter stays below the threshold -/

theorem call_bounded (E : Env) (f : Firmware) (changed : Bool) :
    (PowerSave.call E f changed).state.powerSave.idleCount_ ≤
        f.powerSave.timeout_ * 1000 / f.powerSave.iterTime_ ∧
      (PowerSave.call E f changed).state.powerSave.timeout_ = f.powerSave.timeout_ ∧
      (PowerSave.call E f changed).state.powerSave.iterTime_ = f.powerSave.iterTime_ := by
  have ht : (f.powerSave.count changed).timeout_ = f.powerSave.timeout_ := by
    unfold PowerSave.count; split <;> rfl
  have hi : (f.powerSave.count changed).iterTime_ = f.powerSave.iterTime_ := by
    unfold PowerSave.count; split <;> rfl
  by_cases hgt : (f.powerSave.count changed).idleCount_ >
      f.powerSave.timeout_ * 1000 / f.powerSave.iterTime_
  · rw [call_of_gt E f changed hgt, sleep_powerSave]
    exact ⟨Nat.zero_le _, ht, hi⟩
  · rw [call_of_le E f changed hgt]
    exact ⟨Nat.le_of_not_gt hgt, ht, hi⟩

theorem calls_bounded (E : Env) (changes : List Bool) (f : Firmware)
    (h : f.powerSave.idleCount_ ≤ f.powerSave.timeout_ * 1000 / f.powerSave.iterTime_) :
    (PowerSave.calls E changes f).powerSave.idleCount_ ≤
      f.powerSave.timeout_ * 1000 / f.powerSave.iterTime_ := by
  induction changes generalizing f with
  | nil => exact h
  | cons c rest ih =>
    have hb := call_bounded E f c
    show (PowerSave.calls E rest (PowerSave.call E f c).state).powerSave.idleCount_ ≤ _
    have := ih (PowerSave.call E f c).state (by rw [hb.2.1, hb.2.2]; exact hb.1)
    rw [hb.2.1, hb.2.2] at this
    exact this

/-- C20: starting from idle counter 0, after every sequence of calls of
`operator()`, whatever the values of `changed`, the idle counter is at most
`timeout_*1000/iterTime_`; and a single call from any counter value already
ends at or below that threshold. -/
theorem C20_idle_counter_bounded (E : Env) (f : Firmware) (changes : List Bool)
    (h0 : f.powerSave.idleCount_ = 0) :
    (PowerSave.calls E changes f).powerSave.idleCount_ ≤
        f.powerSave.timeout_ * 1000 / f.powerSave.iterTime_ ∧
      ∀ (g : Firmware) (changed : Bool),
        (PowerSave.call E g changed).state.powerSave.idleCount_ ≤
          g.powerSave.timeout_ * 1000 / g.powerSave.iterTime_ :=
  ⟨calls_bounded E changes f (by rw [h0]; exact Nat.zero_le _),
   fun g changed => (call_bounded E g changed).1⟩

/-- C20 (witness): threshold 2 and five idle cycles: the counter goes 1, 2, 0
(sleep), 1, 2. -/
theorem C20_idle_counter_bounded_witness :
    (sampleFirmware 0).powerSave.idleCount_ = 0 ∧
    (PowerSave.calls sampleEnv [false, false, false, false, false]
      (sampleFirmware 0)).powerSave.idleCount_ ≤ 2 ∧
    (PowerSave.calls sampleEnv [false, false, false]
      (sampleFirmware 0)).powerSave.idleCount_ = 0 :=
  ⟨rfl,
   (C20_idle_counter_bounded sampleEnv (sampleFirmware 0) [false, false, false, false, false]
     rfl).1,
   by decide⟩

end TrackHand
